import Mathlib

/-!
Verification of the PhantomKeystroke obfuscation pipeline.

This file gives a shallow embedding, in Lean 4, of the parts of the
PhantomKeystroke source (src/input.rs, src/obfuscation.rs, src/command.rs,
src/plugins.rs, src/modes.rs) that the specification's claims are about, and
settles each claim against that embedding.

Modelling conventions, used throughout:

* Rust `HashMap` values are embedded as association lists; `insert` prepends
  (so a lookup finds the most recent insertion, exactly the map semantics),
  and `get` is association-list lookup.
* The thread-local random generator (`rand::thread_rng`) is an external
  entropy source; it is embedded as an explicit stream of natural-number
  draws (`Rng := List Nat`) consumed in program order.  Each `gen_ratio`,
  `gen_range`, `choose` or `shuffle` call consumes draws; both outcomes of
  every Bernoulli trial are reachable by choice of stream.
* Network I/O (`reqwest`) is an external effect; it is embedded as an
  oracle argument giving the outcome of each HTTP request, and the embedded
  operations additionally return the number of requests they perform.
* The wall clock is embedded as explicit arguments carrying the readings
  the code would obtain from `chrono::Local::now()` / `SystemTime::now()`.
* Machine integers that cannot overflow on the modelled paths are `Nat`/`Int`.
* All functions are written with structural recursion (fuel or accumulator
  style where the Rust loop is not structural) so that every definition
  evaluates inside the kernel.
-/

set_option maxHeartbeats 1600000
set_option maxRecDepth 4096

/-! ## String and list helpers

Rust string primitives (`contains`, `replace`, `split`, byte slicing, …)
re-implemented over `List Char` with structural recursion.  Rust `str`
indices are UTF-8 byte offsets; helpers that take positions take byte
offsets and compute with `Char.utf8Size`.
-/

/-- Unicode `White_Space` test, the semantics of Rust `char::is_whitespace`. -/
def rustWhitespace (c : Char) : Bool :=
  (0x09 ≤ c.toNat && c.toNat ≤ 0x0D) || c.toNat = 0x20 || c.toNat = 0x85 ||
  c.toNat = 0xA0 || c.toNat = 0x1680 ||
  (0x2000 ≤ c.toNat && c.toNat ≤ 0x200A) ||
  c.toNat = 0x2028 || c.toNat = 0x2029 || c.toNat = 0x202F ||
  c.toNat = 0x205F || c.toNat = 0x3000

/-- Decide whether `pat` occurs as a contiguous run inside `l`
(Rust `str::contains` with a literal pattern). -/
def containsSub (pat : List Char) : List Char → Bool
  | [] => pat.isEmpty
  | c :: t => pat.isPrefixOf (c :: t) || containsSub pat t

/-- Rust `str::contains` with a literal `&str` pattern. -/
def strContains (s pat : String) : Bool := containsSub pat.data s.data

/-- Rust `str::starts_with` with a literal pattern. -/
def strStarts (s pat : String) : Bool := pat.data.isPrefixOf s.data

/-- Rust `str::ends_with` with a literal pattern. -/
def strEnds (s pat : String) : Bool := pat.data.isSuffixOf s.data

/-- UTF-8 byte length of a character list, as Rust `str::len` counts it. -/
def byteLen (l : List Char) : Nat := l.foldl (fun a c => a + c.utf8Size) 0

/-- UTF-8 byte length of a string (Rust `str::len`). -/
def strLen (s : String) : Nat := byteLen s.data

/-- Fuel-driven core of `listReplace`; each step consumes at least one
character of `l`, so fuel `l.length` suffices. -/
def replaceAllAux : Nat → List Char → List Char → List Char → List Char
  | 0, l, _, _ => l
  | fuel + 1, l, pat, rep =>
    match l with
    | [] => []
    | c :: cs =>
      if pat.isPrefixOf l then rep ++ replaceAllAux fuel (l.drop pat.length) pat rep
      else c :: replaceAllAux fuel cs pat rep

/-- Replace every (non-overlapping, leftmost-first) occurrence of `pat`,
the semantics of Rust `str::replace`.  A Rust empty pattern inserts `rep`
at every boundary; that edge is never exercised by the source and is
embedded as the identity. -/
def listReplace (l pat rep : List Char) : List Char :=
  if pat.isEmpty then l else replaceAllAux l.length l pat rep

/-- Rust `str::replace` on strings. -/
def strReplace (s pat rep : String) : String := ⟨listReplace s.data pat.data rep.data⟩

/-- Replace only the first occurrence of `pat` (Rust `str::replacen(pat, rep, 1)`). -/
def replaceFirstAux : List Char → List Char → List Char → List Char
  | [], _, _ => []
  | c :: cs, pat, rep =>
    if pat.isPrefixOf (c :: cs) then rep ++ (c :: cs).drop pat.length
    else c :: replaceFirstAux cs pat rep

/-- Rust `str::replacen(pat, rep, 1)` (the source only ever uses count 1). -/
def strReplaceFirst (s pat rep : String) : String :=
  if pat.isEmpty then s else ⟨replaceFirstAux s.data pat.data rep.data⟩

/-- Byte offset of the first occurrence of `pat` (Rust `str::find`). -/
def findByteAux : List Char → List Char → Nat → Option Nat
  | [], pat, ofs => if pat.isEmpty then some ofs else none
  | c :: cs, pat, ofs =>
    if pat.isPrefixOf (c :: cs) then some ofs else findByteAux cs pat (ofs + c.utf8Size)

/-- Rust `str::find` with a literal pattern, returning a byte offset. -/
def strFind (s pat : String) : Option Nat := findByteAux s.data pat.data 0

/-- Byte offset of the last occurrence of character `c` (Rust `str::rfind(char)`),
with the source's `unwrap_or(0)` folded in. -/
def rfindCharByteAux : List Char → Char → Nat → Option Nat → Option Nat
  | [], _, _, best => best
  | d :: ds, c, ofs, best =>
    rfindCharByteAux ds c (ofs + d.utf8Size) (if d = c then some ofs else best)

/-- Rust `s.rfind(c).unwrap_or(0)`. -/
def strRfindD (s : String) (c : Char) : Nat := (rfindCharByteAux s.data c 0 none).getD 0

/-- Characters whose UTF-8 encoding fits in the first `n` bytes
(Rust `&s[..n]`; Rust panics on a non-boundary `n`, here the cut rounds
down to the previous boundary — no modelled path cuts mid-character). -/
def takeBytes : List Char → Nat → List Char
  | [], _ => []
  | c :: cs, n => if c.utf8Size ≤ n then c :: takeBytes cs (n - c.utf8Size) else []

/-- Characters after the first `n` bytes (Rust `&s[n..]`, same boundary note). -/
def dropBytes : List Char → Nat → List Char
  | [], _ => []
  | c :: cs, n => if n = 0 then c :: cs else dropBytes cs (n - c.utf8Size)

/-- Rust `&s[..n]` with a byte offset. -/
def sliceTo (s : String) (n : Nat) : String := ⟨takeBytes s.data n⟩

/-- Rust `&s[n..]` with a byte offset. -/
def sliceFrom (s : String) (n : Nat) : String := ⟨dropBytes s.data n⟩

/-- Rust `&s[a..b]` with byte offsets. -/
def sliceRange (s : String) (a b : Nat) : String := ⟨takeBytes (dropBytes s.data a) (b - a)⟩

/-- Fuel-driven core of `splitOnStr`; fuel `l.length + 1` suffices for a
nonempty pattern. -/
def splitOnAux : Nat → List Char → List Char → List Char → List (List Char)
  | 0, l, _, acc => [acc.reverse ++ l]
  | fuel + 1, l, pat, acc =>
    match l with
    | [] => [acc.reverse]
    | c :: cs =>
      if pat.isPrefixOf (c :: cs) then
        acc.reverse :: splitOnAux fuel ((c :: cs).drop pat.length) pat []
      else splitOnAux fuel cs pat (c :: acc)

/-- Rust `str::split` with a literal nonempty pattern (keeps empty pieces,
including a trailing one — Rust `split` semantics, not `split_whitespace`). -/
def splitOnStr (s pat : String) : List String :=
  (splitOnAux (s.data.length + 1) s.data pat.data []).map (fun l => ⟨l⟩)

/-- Join with a separator, Rust `[String]::join`. -/
def joinWith (sep : String) (parts : List String) : String :=
  ⟨List.intercalate sep.data (parts.map String.data)⟩

/-- Accumulator core of `splitWs`: `acc` holds the (reversed) token being read. -/
def splitWsAux : List Char → List Char → List (List Char)
  | [], acc => if acc.isEmpty then [] else [acc.reverse]
  | c :: cs, acc =>
    if rustWhitespace c then
      if acc.isEmpty then splitWsAux cs [] else acc.reverse :: splitWsAux cs []
    else splitWsAux cs (c :: acc)

/-- Maximal runs of non-whitespace characters, the semantics of Rust
`str::split_whitespace` (no empty tokens). -/
def splitWs (l : List Char) : List (List Char) := splitWsAux l []

/-- Rust `str::split_whitespace` on strings. -/
def splitWhitespace (s : String) : List String := (splitWs s.data).map (fun l => ⟨l⟩)

/-- Number of whitespace-separated tokens of a string: the tokenizer the
specification's token-count property is stated under. -/
def countTokens (s : String) : Nat := (splitWs s.data).length

/-- ASCII lowercase map, embedding of the `to_lowercase` call sites of the
source (every character those sites test is ASCII or is fixed by both the
Rust and the ASCII lowercase maps). -/
def strToLower (s : String) : String := ⟨s.data.map Char.toLower⟩

/-- Association-list lookup with decidable equality: the embedding of
`HashMap::get` (maps are stored most-recent-insertion-first). -/
def alookup [DecidableEq α] (k : α) : List (α × β) → Option β
  | [] => none
  | (a, b) :: rest => if a = k then some b else alookup k rest

/-- Insert a position into a list, Rust `Vec::insert(i, a)` (call sites
always have `i ≤ length`). -/
def listInsertAt (l : List α) (i : Nat) (a : α) : List α :=
  l.take i ++ a :: l.drop i

/-- Pad a number to two digits, Rust `format!("{:02}", n)`. -/
def pad2 (n : Nat) : String := if n < 10 then "0" ++ toString n else toString n

/-! ## Randomness model

A draw stream for `rand::thread_rng()`.  Only the branch structure matters
for the claims; each primitive consumes draws exactly where the source
consults the generator (note Rust `&&` short-circuits, so a `gen_ratio` on
the right of `&&` draws only when the left operand is true). -/

/-- Stream of random draws. -/
abbrev Rng := List Nat

/-- Take the next raw draw (an exhausted stream keeps yielding 0). -/
def rngNext (r : Rng) : Nat × Rng :=
  match r with
  | [] => (0, [])
  | n :: rest => (n, rest)

/-- Model of `rng.gen_ratio(p, q)`: consumes one draw `n`, true iff `n % q < p`. -/
def chanceDraw (p q : Nat) (r : Rng) : Bool × Rng :=
  let (n, r) := rngNext r
  (decide (n % q < p), r)

/-- Model of `rng.gen_range(lo..hi)` (half-open). -/
def rangeDraw (lo hi : Nat) (r : Rng) : Nat × Rng :=
  let (n, r) := rngNext r
  (lo + n % (hi - lo), r)

/-- Model of `rng.gen_range(lo..=hi)` (inclusive). -/
def rangeInclDraw (lo hi : Nat) (r : Rng) : Nat × Rng :=
  let (n, r) := rngNext r
  (lo + n % (hi - lo + 1), r)

/-- Model of `slice::choose(&mut rng).unwrap()` with a default for the
(unreached) empty case. -/
def chooseDraw (l : List α) (d : α) (r : Rng) : α × Rng :=
  let (n, r) := rngNext r
  (l.getD (n % l.length) d, r)

/-- Fuel-driven selection shuffle, the model of `slice::shuffle(&mut rng)`:
one draw per element selects the next output element. -/
def shuffleAux : Nat → List α → Rng → List α × Rng
  | 0, l, r => (l, r)
  | fuel + 1, l, r =>
    match l with
    | [] => ([], r)
    | x :: _ =>
      let (n, r) := rngNext r
      let i := n % l.length
      let y := l.getD i x
      let (rest, r) := shuffleAux fuel (l.take i ++ l.drop (i + 1)) r
      (y :: rest, r)

/-- Model of `slice::shuffle(&mut rng)`. -/
def shuffleDraw (l : List α) (r : Rng) : List α × Rng := shuffleAux l.length l r

/-! ## Keys and the key mapper (src/input.rs, src/obfuscation.rs 11-603) -/

/-- Simplified key codes, src/input.rs `Key`. -/
inductive Key where
  | Char (c : Char)
  | Enter
  | Backspace
  | Tab
  | Escape
  | ArrowUp
  | ArrowDown
  | ArrowLeft
  | ArrowRight
  | Home
  | End
  | PageUp
  | PageDown
  | Delete
  | Function (n : Nat)
  | Other
  deriving DecidableEq

/-- Key mapper state, src/obfuscation.rs `KeyMapper` (the `HashMap<Key, Key>`
as an insertion list, most recent first). -/
structure KeyMapper where
  mapping : List (Key × Key)
  deriving DecidableEq

/-- Successive `HashMap::insert` calls: each pair is prepended so that lookup
sees the latest insertion. -/
def insertAll (m : List (Key × Key)) (ps : List (Key × Key)) : List (Key × Key) :=
  ps.foldl (fun m p => p :: m) m

/-- Pair of character keys, abbreviating `mapping.insert(Key::Char a, Key::Char b)`. -/
def kc (a b : Char) : Key × Key := (Key.Char a, Key.Char b)

/-- Identity mapping table, src/obfuscation.rs 79-101 `KeyMapper::identity`:
every ASCII letter (both cases, uppercase via `to_uppercase`), every digit,
and the four named keys map to themselves. -/
def identityMapping : List (Key × Key) :=
  let letters := (List.range 26).foldl (fun m i =>
    let c := Char.ofNat ('a'.toNat + i)
    let u := Char.ofNat ('A'.toNat + i)
    (Key.Char u, Key.Char u) :: (Key.Char c, Key.Char c) :: m) []
  let digits := (List.range 10).foldl (fun m i =>
    let d := Char.ofNat ('0'.toNat + i)
    (Key.Char d, Key.Char d) :: m) letters
  insertAll digits
    [(Key.Enter, Key.Enter), (Key.Backspace, Key.Backspace),
     (Key.Tab, Key.Tab), (Key.Escape, Key.Escape)]

/-- Src/obfuscation.rs 79-101 `KeyMapper::identity`. -/
def KeyMapper.identity : KeyMapper := ⟨identityMapping⟩

/-- Src/obfuscation.rs 104-120 `KeyMapper::german_layout`. -/
def KeyMapper.german_layout : KeyMapper :=
  ⟨insertAll identityMapping
    [kc 'y' 'z', kc 'z' 'y', kc 'Y' 'Z', kc 'Z' 'Y',
     kc '[' 'ü', kc ']' '+', kc ';' 'ö', kc (Char.ofNat 39) 'ä']⟩

/-- Src/obfuscation.rs 123-138 `KeyMapper::french_layout`. -/
def KeyMapper.french_layout : KeyMapper :=
  ⟨insertAll identityMapping
    [kc 'q' 'a', kc 'w' 'z', kc 'a' 'q', kc 'z' 'w',
     kc 'Q' 'A', kc 'W' 'Z', kc 'A' 'Q', kc 'Z' 'W']⟩

/-- Src/obfuscation.rs 141-156 `KeyMapper::russian_layout`. -/
def KeyMapper.russian_layout : KeyMapper :=
  ⟨insertAll identityMapping
    [kc 'a' 'ф', kc 'b' 'и', kc 'c' 'с', kc 'd' 'в',
     kc 'A' 'Ф', kc 'B' 'И', kc 'C' 'С', kc 'D' 'В']⟩

/-- Src/obfuscation.rs 159-168 `KeyMapper::japanese_layout`. -/
def KeyMapper.japanese_layout : KeyMapper :=
  ⟨insertAll identityMapping
    [kc '@' (Char.ofNat 34), kc '[' '「', kc ']' '」']⟩

/-- Src/obfuscation.rs 171-188 `KeyMapper::spanish_layout`. -/
def KeyMapper.spanish_layout : KeyMapper :=
  ⟨insertAll identityMapping
    [kc '~' 'ñ', kc (Char.ofNat 39) 'ñ', kc ';' 'ñ', kc '[' '´', kc ']' '¨',
     kc '1' '!', kc '2' (Char.ofNat 34), kc '6' '&', kc '4' '$']⟩

/-- Src/obfuscation.rs 191-208 `KeyMapper::brazilian_layout`. -/
def KeyMapper.brazilian_layout : KeyMapper :=
  ⟨insertAll identityMapping
    [kc (Char.ofNat 39) 'ç', kc '[' '´', kc ']' '[', kc '\\' ']',
     kc '~' (Char.ofNat 39), kc (Char.ofNat 96) (Char.ofNat 39),
     kc ';' 'ç', kc '/' ';', kc '.' ':']⟩

/-- Src/obfuscation.rs 211-281 `KeyMapper::chinese_layout`. -/
def KeyMapper.chinese_layout : KeyMapper :=
  ⟨insertAll identityMapping
    [kc 'a' '啊', kc 'b' '不', kc 'c' '从', kc 'd' '的', kc 'e' '额',
     kc 'f' '发', kc 'g' '个', kc 'h' '和', kc 'i' '以', kc 'j' '就',
     kc 'k' '看', kc 'l' '了', kc 'm' '吗', kc 'n' '你', kc 'o' '哦',
     kc 'p' '朋', kc 'q' '去', kc 'r' '人', kc 's' '是', kc 't' '他',
     kc 'u' '有', kc 'v' '女', kc 'w' '我', kc 'x' '小', kc 'y' '一',
     kc 'z' '在',
     kc 'A' '啊', kc 'B' '百', kc 'C' '草', kc 'D' '但', kc 'H' '好',
     kc 'M' '没', kc 'S' '谢', kc 'W' '为', kc 'X' '下',
     kc '1' '一', kc '2' '二', kc '3' '三', kc '4' '四', kc '5' '五',
     kc '6' '六', kc '7' '七', kc '8' '八', kc '9' '九', kc '0' '零',
     kc ',' '，', kc '.' '。', kc '?' '？', kc '!' '！', kc ':' '：',
     kc ';' '；', kc (Char.ofNat 39) (Char.ofNat 39),
     kc (Char.ofNat 34) (Char.ofNat 34), kc '(' '（', kc ')' '）']⟩

/-- Src/obfuscation.rs 284-353 `KeyMapper::cantonese_layout`. -/
def KeyMapper.cantonese_layout : KeyMapper :=
  ⟨insertAll identityMapping
    [kc 'a' '呀', kc 'b' '唔', kc 'c' '出', kc 'd' '的', kc 'e' '額',
     kc 'f' '放', kc 'g' '個', kc 'h' '係', kc 'i' '依', kc 'j' '啲',
     kc 'k' '佢', kc 'l' '咗', kc 'm' '咩', kc 'n' '你', kc 'o' '喔',
     kc 'p' '朋', kc 'q' '去', kc 'r' '人', kc 's' '使', kc 't' '睇',
     kc 'u' '有', kc 'v' '話', kc 'w' '我', kc 'x' '冇', kc 'y' '嘢',
     kc 'z' '在',
     kc 'A' '唔', kc 'B' '邊', kc 'C' '點', kc 'D' '多', kc 'H' '好',
     kc 'M' '乜', kc 'W' '我', kc 'X' '樣',
     kc '1' '一', kc '2' '二', kc '3' '三', kc '4' '四', kc '5' '五',
     kc '6' '六', kc '7' '七', kc '8' '八', kc '9' '九', kc '0' '零',
     kc ',' '，', kc '.' '。', kc '?' '？', kc '!' '！', kc ':' '：',
     kc ';' '；', kc (Char.ofNat 39) (Char.ofNat 39),
     kc (Char.ofNat 34) (Char.ofNat 34), kc '(' '（', kc ')' '）']⟩

/-- Src/obfuscation.rs 356-421 `KeyMapper::korean_layout`. -/
def KeyMapper.korean_layout : KeyMapper :=
  ⟨insertAll identityMapping
    [kc 'q' 'ㅂ', kc 'w' 'ㅈ', kc 'e' 'ㄷ', kc 'r' 'ㄱ', kc 't' 'ㅅ',
     kc 'y' 'ㅛ', kc 'u' 'ㅕ', kc 'i' 'ㅑ', kc 'o' 'ㅐ', kc 'p' 'ㅔ',
     kc 'a' 'ㅁ', kc 's' 'ㄴ', kc 'd' 'ㅇ', kc 'f' 'ㄹ', kc 'g' 'ㅎ',
     kc 'h' 'ㅗ', kc 'j' 'ㅓ', kc 'k' 'ㅏ', kc 'l' 'ㅣ',
     kc 'z' 'ㅋ', kc 'x' 'ㅌ', kc 'c' 'ㅊ', kc 'v' 'ㅍ', kc 'b' 'ㅠ',
     kc 'n' 'ㅜ', kc 'm' 'ㅡ',
     kc 'Q' 'ㅃ', kc 'W' 'ㅉ', kc 'E' 'ㄸ', kc 'R' 'ㄲ', kc 'T' 'ㅆ',
     kc 'O' 'ㅒ', kc 'P' 'ㅖ',
     kc '1' '암', kc '2' '호', kc '3' '보', kc '4' '안', kc '5' '전',
     kc '6' '산', kc '7' '키', kc '8' '해', kc '9' '킹', kc '0' '비',
     kc ',' '，', kc '.' '。', kc '?' '？', kc '!' '！']⟩

/-- Src/obfuscation.rs 424-500 `KeyMapper::arabic_layout`. -/
def KeyMapper.arabic_layout : KeyMapper :=
  ⟨insertAll identityMapping
    [kc 'q' 'ض', kc 'w' 'ص', kc 'e' 'ث', kc 'r' 'ق', kc 't' 'ف',
     kc 'y' 'غ', kc 'u' 'ع', kc 'i' 'ه', kc 'o' 'خ', kc 'p' 'ح',
     kc '[' 'ج', kc ']' 'د',
     kc 'a' 'ش', kc 's' 'س', kc 'd' 'ي', kc 'f' 'ب', kc 'g' 'ل',
     kc 'h' 'ا', kc 'j' 'ت', kc 'k' 'ن', kc 'l' 'م', kc ';' 'ك',
     kc (Char.ofNat 39) 'ط',
     kc 'z' 'ئ', kc 'x' 'ء', kc 'c' 'ؤ', kc 'v' 'ر', kc 'b' 'ل',
     kc 'n' 'ى', kc 'm' 'ة', kc ',' 'و', kc '.' 'ز', kc '/' 'ظ',
     kc (Char.ofNat 96) 'ذ', kc 'Q' 'َ', kc 'W' 'ً', kc 'E' 'ُ',
     kc 'R' 'ٌ', kc 'T' 'إ', kc 'Y' 'إ', kc 'U' (Char.ofNat 96),
     kc 'I' '÷', kc 'O' '×', kc 'P' '؛',
     kc '1' '١', kc '2' '٢', kc '3' '٣', kc '4' '٤', kc '5' '٥',
     kc '6' '٦', kc '7' '٧', kc '8' '٨', kc '9' '٩', kc '0' '٠',
     kc '-' '-', kc '=' '=', kc '\\' '\\', kc '?' '؟', kc '!' '!']⟩

/-- Src/obfuscation.rs 503-602 `KeyMapper::farsi_layout`. -/
def KeyMapper.farsi_layout : KeyMapper :=
  ⟨insertAll identityMapping
    [kc 'q' 'ض', kc 'w' 'ص', kc 'e' 'ث', kc 'r' 'ق', kc 't' 'ف',
     kc 'y' 'غ', kc 'u' 'ع', kc 'i' 'ه', kc 'o' 'خ', kc 'p' 'ح',
     kc '[' 'ج', kc ']' 'چ',
     kc 'a' 'ش', kc 's' 'س', kc 'd' 'ی', kc 'f' 'ب', kc 'g' 'ل',
     kc 'h' 'ا', kc 'j' 'ت', kc 'k' 'ن', kc 'l' 'م', kc ';' 'ک',
     kc (Char.ofNat 39) 'گ',
     kc 'z' 'ظ', kc 'x' 'ط', kc 'c' 'ز', kc 'v' 'ر', kc 'b' 'ذ',
     kc 'n' 'د', kc 'm' 'پ', kc ',' 'و', kc '.' '.', kc '/' '/',
     kc 'Q' 'ْ', kc 'W' 'ٌ', kc 'E' 'ٍ', kc 'R' 'ً', kc 'T' 'ُ',
     kc 'Y' 'ِ', kc 'U' 'َ', kc 'I' 'ّ', kc 'O' ']', kc 'P' '[',
     kc (Char.ofNat 0x7B) (Char.ofNat 0x7D), kc (Char.ofNat 0x7D) (Char.ofNat 0x7B),
     kc 'J' 'آ', kc 'L' 'أ', kc 'V' 'ژ', kc ':' ':', kc (Char.ofNat 34) '؛',
     kc (Char.ofNat 96) (Char.ofNat 0x200D),
     kc '1' '۱', kc '2' '۲', kc '3' '۳', kc '4' '۴', kc '5' '۵',
     kc '6' '۶', kc '7' '۷', kc '8' '۸', kc '9' '۹', kc '0' '۰',
     kc '-' '-', kc '=' '=',
     kc '~' '÷', kc '!' '!', kc '@' '٬', kc '#' '٫', kc '$' '﷼',
     kc '%' '٪', kc '^' '×', kc '&' '،', kc '*' '*', kc '(' ')',
     kc ')' '(', kc '_' 'ـ', kc '+' '+',
     kc '\\' '\\', kc '|' '|', kc '?' '؟']⟩

/-- Src/obfuscation.rs 56-71 `KeyMapper::for_country`: the eleven known
country codes select their layout, anything else defaults to the identity
mapping. -/
def KeyMapper.for_country (country_code : String) : KeyMapper :=
  if country_code = "DE" then KeyMapper.german_layout
  else if country_code = "FR" then KeyMapper.french_layout
  else if country_code = "RU" then KeyMapper.russian_layout
  else if country_code = "JP" then KeyMapper.japanese_layout
  else if country_code = "ES" then KeyMapper.spanish_layout
  else if country_code = "BR" then KeyMapper.brazilian_layout
  else if country_code = "CN" then KeyMapper.chinese_layout
  else if country_code = "HK" then KeyMapper.cantonese_layout
  else if country_code = "KR" then KeyMapper.korean_layout
  else if country_code = "AR" then KeyMapper.arabic_layout
  else if country_code = "IR" then KeyMapper.farsi_layout
  else KeyMapper.identity

/-- Src/obfuscation.rs 74-76 `KeyMapper::map_key`: mapped value, or the key
itself when absent. -/
def KeyMapper.map_key (km : KeyMapper) (key : Key) : Key :=
  (alookup key km.mapping).getD key

/-! ## Attribution fingerprints (src/obfuscation.rs 833-2812)

Each `add_*_fingerprints` method is a chain of Bernoulli-guarded rewrite
rules over the text, drawing from `thread_rng`.  They are embedded with the
draw stream threaded explicitly, preserving the exact order in which the
source consults the generator (`&&` short-circuits). -/

/-- Characters of a string paired with their index, Rust
`chars().collect::<Vec<char>>()` traversed by position. -/
def charIndicesAux : List Char → Nat → List (Nat × Char)
  | [], _ => []
  | c :: cs, ofs => (ofs, c) :: charIndicesAux cs (ofs + c.utf8Size)

/-- Rust `str::char_indices` (byte offsets). -/
def charIndicesOf (s : String) : List (Nat × Char) := charIndicesAux s.data 0

/-- Replace the occurrence number `pos` (0-based, counting from the left) of
`tgt`, the inner loop of src/obfuscation.rs 858-874. -/
def replaceNthOccAux : List Char → Char → Char → Nat → Nat → List Char
  | [], _, _, _, _ => []
  | c :: cs, tgt, rep, pos, count =>
    if c = tgt then
      (if count = pos then rep else c) :: replaceNthOccAux cs tgt rep pos (count + 1)
    else c :: replaceNthOccAux cs tgt rep pos count

/-- Src/obfuscation.rs 833-910 `add_russian_fingerprints`. -/
def addRussianFingerprints (text : String) (rng : Rng) : String × Rng :=
  let m := text
  -- 1. Variable name fingerprinting (3% chance)
  let (b1, rng) := chanceDraw 3 100 rng
  let m :=
    if b1 then
      let m := if strContains m "result" && !strContains m "rezultat"
               then strReplace m "result" "rezultat" else m
      if strContains m "temp " || strContains m "temp=" then strReplace m "temp" "vremya" else m
    else m
  -- 2. Russian keyboard typo (5% chance): one Latin e becomes Cyrillic е
  let (b2, rng) := chanceDraw 5 100 rng
  let (m, rng) :=
    if b2 then
      if strContains m "e" then
        let charCount := (m.data.filter (fun c => c = 'e')).length
        if charCount > 0 then
          let (replacePos, rng) := rangeDraw 0 charCount rng
          (⟨replaceNthOccAux m.data 'e' (Char.ofNat 0x435) replacePos 0⟩, rng)
        else (m, rng)
      else (m, rng)
    else (m, rng)
  -- 3. Transliterated Russian comment (1% chance)
  let (b3, rng) := chanceDraw 1 100 rng
  if b3 && !strContains m "proverka" then
    if strContains m "function" || strContains m "#!/" || strContains m "#" then
      let comments := ["# proverka", "# vremya", "# rabota"]
      let (comment, rng) := chooseDraw comments "" rng
      if strContains m "\n" then
        let lines := splitOnStr m "\n"
        if lines.isEmpty then (m, rng)
        else
          let (insertPos, rng) := rangeDraw 0 lines.length rng
          (joinWith "\n" (listInsertAt lines insertPos comment), rng)
      else if m ≠ "" then (m ++ "\n" ++ comment, rng)
      else (m, rng)
    else (m, rng)
  else (m, rng)

/-- One standalone-word substitution from a fixed bilingual table: the shape
shared verbatim by src/obfuscation.rs 1292-1316 (Chinese rule 6), 2326-2350
(Arabic rule 7), 2512-2535 (German rule 5) and 2784-2807 (French rule 5).
For the first pair whose word occurs and whose 40% roll succeeds, the first
matching context pattern is replaced (note the last two patterns are the
literal strings of the source, including the literal caret). -/
def wordSubLoop : List (String × String) → String → Rng → String × Rng
  | [], m, r => (m, r)
  | (english, target) :: rest, m, r =>
    if strContains m english then
      let (b, r) := chanceDraw 4 10 r
      if b then
        let pats := [" " ++ english ++ " ", " " ++ english ++ "\n",
                     " " ++ english ++ ".", " " ++ english, "^" ++ english ++ " "]
        (applyFirstPat m pats english target, r)
      else wordSubLoop rest m r
    else wordSubLoop rest m r
where
  /-- Replace the first context pattern that occurs (with the word renamed
  inside the pattern), then stop. -/
  applyFirstPat : String → List String → String → String → String
    | m, [], _, _ => m
    | m, p :: ps, f, rep =>
      if strContains m p then strReplace m p (strReplace p f rep)
      else applyFirstPat m ps f rep

/-- Variable-name replacement table of src/obfuscation.rs 920-951. -/
def cnVarPairs : List (String × String) :=
  [("data", "shuju"), ("info", "xinxi"), ("time", "shijian"), ("file", "wenjian"),
   ("user", "yonghu"), ("system", "xitong"), ("search", "chazhao"), ("find", "faxian"),
   ("output", "shuchu"), ("input", "shuru"), ("error", "cuowu"), ("log", "rizhi"),
   ("directory", "mulu"), ("list", "liebiao"), ("command", "mingling"),
   ("network", "wangluo"), ("process", "jincheng"), ("status", "zhuangtai"),
   ("memory", "neicun"), ("disk", "cipan"), ("server", "fuwuqi"),
   ("client", "kehuduan"), ("program", "chengxu"), ("code", "daima"),
   ("debug", "tiaoshi"), ("compile", "bianyi"), ("execute", "zhixing"),
   ("test", "ceshi"), ("result", "jieguo"), ("value", "zhi")]

/-- Command replacement table of src/obfuscation.rs 992-1003. -/
def cnCmdPairs : List (String × String) :=
  [("ls", "liebiao"), ("find", "chazhao"), ("cat", "mao"), ("grep", "guolv"),
   ("cd", "jinru"), ("cp", "fuzhi"), ("mv", "yidong"), ("rm", "shanchu"),
   ("touch", "chuangjian"), ("mkdir", "chuangjianmulu")]

/-- Variable loop of Chinese rule 1, src/obfuscation.rs 954-989. -/
def cnVarLoop : List (String × String) → String → Rng → String × Rng
  | [], m, r => (m, r)
  | (f, rep) :: rest, m, r =>
    if strContains m f then
      let (b, r) := chanceDraw 5 10 r
      if b then
        let pats := [" " ++ f ++ " ", " " ++ f ++ "\n", " " ++ f ++ ".", " " ++ f ++ "-",
                     f ++ "=", " " ++ f ++ "=", "--" ++ f, "-" ++ f]
        let m := wordSubLoop.applyFirstPat m pats f rep
        let m :=
          if strStarts m f then
            if strLen m = strLen f || rustWhitespace (m.data.getD (strLen f) ' ')
            then rep ++ sliceFrom m (strLen f) else m
          else m
        (m, r)
      else cnVarLoop rest m r
    else cnVarLoop rest m r

/-- Command loop of Chinese rule 1, src/obfuscation.rs 1006-1021. -/
def cnCmdLoop : List (String × String) → String → Rng → String × Rng
  | [], m, r => (m, r)
  | (cmd, rep) :: rest, m, r =>
    if strStarts m cmd || strContains m ("| " ++ cmd) then
      let (b, r) := chanceDraw 6 10 r
      if b then
        if strStarts m cmd &&
           (strLen m = strLen cmd || rustWhitespace (m.data.getD (strLen cmd) ' ')) then
          (strReplaceFirst m cmd rep, r)
        else
          match strFind m ("| " ++ cmd) with
          | some pos => (sliceTo m (pos + 2) ++ rep ++ sliceFrom m (pos + 2 + strLen cmd), r)
          | none => cnCmdLoop rest m r
      else cnCmdLoop rest m r
    else cnCmdLoop rest m r

/-- Full-width replacement table of src/obfuscation.rs 1027-1052. -/
def cnFullwidthPairs : List (Char × Char) :=
  [(' ', '　'), ('.', '。'), (',', '，'), (':', '：'), (';', '；'), ('!', '！'),
   ('?', '？'), ('(', '（'), (')', '）'), ('-', '－'), ('+', '＋'), ('=', '＝'),
   ('<', '＜'), ('>', '＞'), ('[', '［'), (']', '］'),
   (Char.ofNat 0x7B, '｛'), (Char.ofNat 0x7D, '｝'), ('/', '／'), ('\\', '＼'),
   ('*', '＊'), ('&', '＆'), ('#', '＃'), ('@', '＠')]

/-- Try the pairs in order against one character; the roll is consumed only
for a pair whose left side matches (the per-pair `rng.gen_ratio(p, q)` of
the source's inner replacement loops). -/
def charPairDraw (p q : Nat) : List (Char × Char) → Char → Rng → Option Char × Rng
  | [], _, r => (none, r)
  | (o, rp) :: rest, c, r =>
    if c = o then
      let (b, r) := chanceDraw p q r
      if b then (some rp, r) else charPairDraw p q rest c r
    else charPairDraw p q rest c r

/-- Character loop of Chinese rule 2, src/obfuscation.rs 1055-1091
(the `skip_next` flag of the source is never set and is dropped). -/
def cnRule2Aux (all : List Char) (len : Nat) :
    List Char → Nat → Rng → List Char → List Char × Rng
  | [], _, r, acc => (acc.reverse, r)
  | c :: rest, i, r, acc =>
    if (i > 0 ∧ all.getD (i - 1) ' ' = '/') ∨ (i < len - 1 ∧ all.getD (i + 1) ' ' = '/') ∨
       (i > 7 ∧ (all.drop (i - 7)).take 7 = "http://".data) ∨
       (i > 8 ∧ (all.drop (i - 8)).take 8 = "https://".data) then
      cnRule2Aux all len rest (i + 1) r (c :: acc)
    else
      match charPairDraw 5 10 cnFullwidthPairs c r with
      | (some rp, r) => cnRule2Aux all len rest (i + 1) r (rp :: acc)
      | (none, r) => cnRule2Aux all len rest (i + 1) r (c :: acc)

/-- Chinese numeral table of src/obfuscation.rs 1097-1108. -/
def cnNumPairs : List (Char × Char) :=
  [('0', '零'), ('1', '一'), ('2', '二'), ('3', '三'), ('4', '四'),
   ('5', '五'), ('6', '六'), ('7', '七'), ('8', '八'), ('9', '九')]

/-- Position-collection pass of Chinese rule 3, src/obfuscation.rs 1115-1132:
digits outside path/parameter/version contexts pass an individual 60% roll. -/
def cnDigitPosAux (all : List Char) (len : Nat) :
    List Char → Nat → Rng → List Nat → List Nat × Rng
  | [], _, r, acc => (acc.reverse, r)
  | c :: rest, i, r, acc =>
    if c.isDigit then
      if ¬((i > 0 ∧ (all.getD (i - 1) ' ' = '/' ∨ all.getD (i - 1) ' ' = '.')) ∨
           (i + 1 < len ∧ (all.getD (i + 1) ' ' = '/' ∨ all.getD (i + 1) ' ' = '.'))) ∧
         ¬(i > 0 ∧ all.getD (i - 1) ' ' = '-') ∧
         ¬(i > 1 ∧ i < len - 1 ∧ (all.getD (i - 1) ' ').isDigit ∧
           (all.getD (i + 1) ' ').isDigit) then
        match chanceDraw 6 10 r with
        | (true, r) => cnDigitPosAux all len rest (i + 1) r (i :: acc)
        | (false, r) => cnDigitPosAux all len rest (i + 1) r acc
      else cnDigitPosAux all len rest (i + 1) r acc
    else cnDigitPosAux all len rest (i + 1) r acc

/-- Comment table of src/obfuscation.rs 1154-1170. -/
def cnComments : List String :=
  ["# jiancha", "# shijian", "# gongzuo", "# wenjian", "# mulu", "# mingling",
   "# zhixing", "# tiaoshi", "# zhushi", "# beifen", "# wancheng", "# jincheng",
   "# quanxian", "# daima", "# chuangjian"]

/-- Rust `str::lines().count()`: `split('\n')` without a trailing empty piece. -/
def linesCount (s : String) : Nat :=
  if s = "" then 0
  else
    let parts := splitOnStr s "\n"
    if parts.getLast? = some "" then parts.length - 1 else parts.length

/-- Comment selection loop of src/obfuscation.rs 1179-1185. -/
def cnPickComments : Nat → List String → Rng → List String × Rng
  | 0, sel, r => (sel, r)
  | k + 1, sel, r =>
    let (c, r) := chooseDraw cnComments "" r
    cnPickComments k (if sel.contains c then sel else sel ++ [c]) r

/-- Comment insertion loop of src/obfuscation.rs 1193-1196 (each insertion
position is drawn against the grown list). -/
def cnInsertComments : List String → List String → Rng → List String × Rng
  | [], lines, r => (lines, r)
  | c :: rest, lines, r =>
    let (pos, r) := rangeDraw 0 lines.length r
    cnInsertComments rest (listInsertAt lines pos c) r

/-- Date-format loop body of Chinese rule 5, src/obfuscation.rs 1225-1246. -/
def cnDateFmtLoop : String → List String → Nat → Nat → String
  | m, [], _, _ => m
  | m, us :: rest, month, day =>
    if strContains m us then
      let year := sliceFrom us (strRfindD us '/' + 1)
      strReplace m us (year ++ "/" ++ pad2 month ++ "/" ++ pad2 day)
    else cnDateFmtLoop m rest month day

/-- Date loops of Chinese rule 5, src/obfuscation.rs 1216-1248. -/
def cnDateLoop (m : String) : String :=
  ((List.range 12).map (· + 1)).foldl (fun m month =>
    ((List.range 31).map (· + 1)).foldl (fun m day =>
      if (month = 2 ∧ day > 29) ∨
         ((month = 4 ∨ month = 6 ∨ month = 9 ∨ month = 11) ∧ day > 30) then m
      else
        cnDateFmtLoop m
          [pad2 month ++ "/" ++ pad2 day ++ "/2023",
           pad2 month ++ "/" ++ pad2 day ++ "/2024",
           pad2 month ++ "/" ++ pad2 day ++ "/2025",
           toString month ++ "/" ++ toString day ++ "/2023",
           toString month ++ "/" ++ toString day ++ "/2024",
           toString month ++ "/" ++ toString day ++ "/2025"] month day) m) m

/-- Vocabulary table of Chinese rule 6, src/obfuscation.rs 1259-1289. -/
def cnWordPairs : List (String × String) :=
  [("file", "文件"), ("directory", "目录"), ("folder", "文件夹"), ("user", "用户"),
   ("password", "密码"), ("command", "命令"), ("search", "搜索"), ("find", "查找"),
   ("error", "错误"), ("help", "帮助"), ("print", "打印"), ("save", "保存"),
   ("open", "打开"), ("close", "关闭"), ("exit", "退出"), ("yes", "是"),
   ("no", "否"), ("please", "请"), ("thanks", "谢谢"), ("now", "现在"),
   ("today", "今天"), ("time", "时间"), ("date", "日期"), ("log", "日志"),
   ("system", "系统"), ("program", "程序"), ("network", "网络"),
   ("server", "服务器"), ("client", "客户端")]

/-- Src/obfuscation.rs 913-1320 `add_chinese_fingerprints`. -/
def addChineseFingerprints (text : String) (rng : Rng) : String × Rng :=
  let m := text
  -- 1. Variable and command renames with pinyin (20% chance)
  let (b1, rng) := chanceDraw 20 100 rng
  let (m, rng) :=
    if b1 then
      let (m, rng) := cnVarLoop cnVarPairs m rng
      cnCmdLoop cnCmdPairs m rng
    else (m, rng)
  -- 2. Full-width characters (20% chance)
  let (b2, rng) := chanceDraw 20 100 rng
  let (m, rng) :=
    if b2 then
      let chars := m.data
      let (out, rng) := cnRule2Aux chars chars.length chars 0 rng []
      (⟨out⟩, rng)
    else (m, rng)
  -- 3. Chinese numerals (18% chance, up to 4 digits)
  let (b3, rng) := chanceDraw 18 100 rng
  let (m, rng) :=
    if b3 then
      let chars := m.data
      let (positions, rng) := cnDigitPosAux chars chars.length chars 0 rng []
      let replaceCount := min positions.length 4
      if replaceCount > 0 then
        let (shuffled, rng) := shuffleDraw positions rng
        let out := (shuffled.take replaceCount).foldl (fun cs pos =>
          cs.set pos ((alookup (cs.getD pos ' ') cnNumPairs).getD (cs.getD pos ' '))) chars
        (⟨out⟩, rng)
      else (m, rng)
    else (m, rng)
  -- 4. Transliterated Chinese comment (15% chance)
  let (b4, rng) := chanceDraw 15 100 rng
  let (m, rng) :=
    if b4 && !strContains m "jiancha" then
      if strContains m "function" || strContains m "#!/" || strContains m "#" then
        let (commentCount, rng) :=
          if strContains m "\n" && linesCount m > 3 then rangeInclDraw 1 2 rng
          else (1, rng)
        let (selected, rng) := cnPickComments commentCount [] rng
        if strContains m "\n" then
          let lines := splitOnStr m "\n"
          if lines.isEmpty then (m, rng)
          else
            let (newLines, rng) := cnInsertComments selected lines rng
            (joinWith "\n" newLines, rng)
        else if m ≠ "" then (m ++ "\n" ++ selected.headD "", rng)
        else (m, rng)
      else (m, rng)
    else (m, rng)
  -- 5. Chinese date order (18% chance)
  let (b5, rng) := chanceDraw 18 100 rng
  let (m, rng) :=
    if b5 then
      let m := if strContains m "02/28/2025" then strReplace m "02/28/2025" "2025/02/28" else m
      let m := cnDateLoop m
      let (b, rng) := chanceDraw 3 10 rng
      (if b && strContains m "2023" then strReplace m "2023年" "二零二三年" else m, rng)
    else (m, rng)
  -- 6. Chinese vocabulary substitution (15% chance)
  let (b6, rng) := chanceDraw 15 100 rng
  if b6 then wordSubLoop cnWordPairs m rng else (m, rng)

/-- Command transliteration table of src/obfuscation.rs 1330-1341. -/
def koCmdPairs : List (String × String) :=
  [("cat", "캣"), ("grep", "그렙"), ("ls", "리스트"), ("find", "찾기"),
   ("rm", "삭제"), ("cp", "복사"), ("mv", "이동"), ("mkdir", "디렉토리생성"),
   ("echo", "에코"), ("pwd", "현재경로")]

/-- Command loop of Korean rule 1, src/obfuscation.rs 1344-1363 (the 60%
roll is drawn for every pair until one branch fires). -/
def koCmdLoop : List (String × String) → String → Rng → String × Rng
  | [], m, r => (m, r)
  | (cmd, rep) :: rest, m, r =>
    let (b, r) := chanceDraw 6 10 r
    if b then
      if strStarts m cmd then (strReplaceFirst m cmd rep, r)
      else if strContains m ("| " ++ cmd) then
        (strReplaceFirst m ("| " ++ cmd) ("| " ++ rep), r)
      else if strContains m (" " ++ cmd ++ " ") then
        (strReplaceFirst m (" " ++ cmd ++ " ") (" " ++ rep ++ " "), r)
      else koCmdLoop rest m r
    else koCmdLoop rest m r

/-- Variable table of src/obfuscation.rs 1369-1381. -/
def koVarPairs : List (String × String) :=
  [("value", "gapchi"), ("count", "gaesoo"), ("index", "chakpyo"), ("time", "sigan"),
   ("file", "paeil"), ("result", "gyeolgwa"), ("data", "deiteo"), ("user", "sayongja"),
   ("name", "ireum"), ("password", "amho"), ("error", "oreyu")]

/-- Variable loop of Korean rule 2, src/obfuscation.rs 1384-1409. -/
def koVarLoop : List (String × String) → String → Rng → String × Rng
  | [], m, r => (m, r)
  | (v, rep) :: rest, m, r =>
    if strContains m v then
      let (b, r) := chanceDraw 3 10 r
      if b then
        let pats := [" " ++ v ++ " ", v ++ "=", " " ++ v ++ "=", " " ++ v ++ "\n"]
        (koApplyPat m pats rep, r)
      else koVarLoop rest m r
    else koVarLoop rest m r
where
  /-- Replacement text depends on the pattern's last character
  (src/obfuscation.rs 1394-1405). -/
  koApplyPat : String → List String → String → String
    | m, [], _ => m
    | m, p :: ps, rep =>
      if strContains m p then
        if strEnds p "=" then strReplace m p (rep ++ "=")
        else if strEnds p "\n" then strReplace m p (" " ++ rep ++ "\n")
        else strReplace m p (" " ++ rep ++ " ")
      else koApplyPat m ps rep

/-- Punctuation table of Korean rule 3, src/obfuscation.rs 1415-1422. -/
def koPunctPairs : List (String × String) :=
  [(".", "。"), (",", "，"), ("!", "！"), ("?", "？"), (":", "："), (";", "；")]

/-- Per-position pair loop of Korean rule 3, src/obfuscation.rs 1429-1445. -/
def koPairLoop : List (String × String) → List Char → Nat → Nat → Nat → Rng →
    List Char × Nat × Rng
  | [], chars, _, _, count, r => (chars, count, r)
  | (orig, repl) :: rest, chars, i, len, count, r =>
    if chars.getD i ' ' = orig.data.headD ' ' then
      if ¬((i > 0 ∧ (chars.getD (i - 1) ' ').isAlphanum ∧ i + 1 < len ∧
            (chars.getD (i + 1) ' ').isAlphanum) ∨
           (i > 1 ∧ chars.getD (i - 2) ' ' = 'p' ∧ chars.getD (i - 1) ' ' = 't' ∧
            chars.getD i ' ' = ':')) then
        let (b, r) := chanceDraw 6 10 r
        if b then
          let chars := chars.set i (repl.data.headD ' ')
          if count + 1 ≥ 2 then (chars, count + 1, r)
          else koPairLoop rest chars i len (count + 1) r
        else koPairLoop rest chars i len count r
      else koPairLoop rest chars i len count r
    else koPairLoop rest chars i len count r

/-- Position loop of Korean rule 3, src/obfuscation.rs 1428-1450 (stops once
two replacements were made). -/
def koRule3Loop : Nat → List Char → Nat → Nat → Nat → Rng → List Char × Rng
  | 0, chars, _, _, _, r => (chars, r)
  | fuel + 1, chars, i, len, count, r =>
    let (chars, count, r) := koPairLoop koPunctPairs chars i len count r
    if count ≥ 2 then (chars, r)
    else koRule3Loop fuel chars (i + 1) len count r

/-- Hangul comment table of src/obfuscation.rs 1461-1467. -/
def koComments : List String := ["주석", "메모", "참고", "확인", "테스트"]

/-- Inner number scan of Korean rule 5, src/obfuscation.rs 1543-1553. -/
def koNumInner : List Nat → String → String → String
  | [], m, _ => m
  | i :: rest, m, counter =>
    let num := toString i
    if strContains m num && !strContains m ("/" ++ num) && !strContains m ("-" ++ num)
    then strReplace m num (num ++ counter)
    else koNumInner rest m counter

/-- Pattern loop of Korean rule 5, src/obfuscation.rs 1540-1556 (the first
pattern whose 30% roll succeeds ends the loop). -/
def koNumPatLoop : List String → String → Rng → String × Rng
  | [], m, r => (m, r)
  | counter :: rest, m, r =>
    let (b, r) := chanceDraw 3 10 r
    if b then (koNumInner ((List.range 100).map (· + 1)) m counter, r)
    else koNumPatLoop rest m r

/-- Src/obfuscation.rs 1323-1560 `add_korean_fingerprints`. -/
def addKoreanFingerprints (text : String) (rng : Rng) : String × Rng :=
  let m := text
  -- 1. Command transliteration (14% chance)
  let (b1, rng) := chanceDraw 14 100 rng
  let (m, rng) := if b1 then koCmdLoop koCmdPairs m rng else (m, rng)
  -- 2. Variable renames (10% chance)
  let (b2, rng) := chanceDraw 10 100 rng
  let (m, rng) := if b2 then koVarLoop koVarPairs m rng else (m, rng)
  -- 3. Hangul punctuation (8% chance, at most two replacements)
  let (b3, rng) := chanceDraw 8 100 rng
  let (m, rng) :=
    if b3 then
      let chars := m.data
      let (out, rng) := koRule3Loop chars.length chars 0 chars.length 0 rng
      (⟨out⟩, rng)
    else (m, rng)
  -- 4. Hangul markers (10% chance)
  let (b4, rng) := chanceDraw 10 100 rng
  let (m, rng) :=
    if b4 then
      if strContains m "#" || strContains m "//" then
        let (comment, rng) := chooseDraw koComments "" rng
        if strContains m "#" then
          let parts := splitOnStr m "#"
          if parts.length > 1 then
            (((parts.headD "") ++ "# " ++ comment ++ " " ++ parts.getD 1 "") ++
              String.join ((parts.drop 2).map (fun p => "#" ++ p)), rng)
          else (m, rng)
        else
          let parts := splitOnStr m "//"
          if parts.length > 1 then
            (((parts.headD "") ++ "// " ++ comment ++ " " ++ parts.getD 1 "") ++
              String.join ((parts.drop 2).map (fun p => "//" ++ p)), rng)
          else (m, rng)
      else if strContains m ";" then
        (strReplace m ";" (";" ++ String.singleton (Char.ofNat 0x200B)), rng)
      else if strContains m " " then
        let positions := (charIndicesOf m).filter (fun p => p.2 = ' ')
        if !positions.isEmpty then
          let (k, rng) := rangeDraw 0 positions.length rng
          let insertPos := (positions.getD k (0, ' ')).1
          (sliceTo m insertPos ++ " " ++ String.singleton 'ᄒ' ++ " " ++
            sliceFrom m (insertPos + 1), rng)
        else (m, rng)
      else (m, rng)
    else (m, rng)
  -- 5. Korean counters on small numbers (7% chance)
  let (b5, rng) := chanceDraw 7 100 rng
  if b5 then koNumPatLoop ["개", "초", "분", "시", "일"] m rng else (m, rng)

/-- Persian digit map of src/obfuscation.rs 1570-1581 and 1815-1837. -/
def toPersianDigit (c : Char) : Char :=
  if c = '0' then '۰' else if c = '1' then '۱' else if c = '2' then '۲'
  else if c = '3' then '۳' else if c = '4' then '۴' else if c = '5' then '۵'
  else if c = '6' then '۶' else if c = '7' then '۷' else if c = '8' then '۸'
  else if c = '9' then '۹' else c

/-- Digit-position collection of Farsi rule 1, src/obfuscation.rs 1588-1600
(no rolls here, unlike the Chinese analogue). -/
def faDigitPosAux (all : List Char) (len : Nat) : List Char → Nat → List Nat
  | [], _ => []
  | c :: rest, i =>
    if c.isDigit then
      if ¬((i > 0 ∧ (all.getD (i - 1) ' ' = '/' ∨ all.getD (i - 1) ' ' = '.')) ∨
           (i + 1 < len ∧ (all.getD (i + 1) ' ' = '/' ∨ all.getD (i + 1) ' ' = '.'))) ∧
         ¬(i > 0 ∧ all.getD (i - 1) ' ' = '-') then
        i :: faDigitPosAux all len rest (i + 1)
      else faDigitPosAux all len rest (i + 1)
    else faDigitPosAux all len rest (i + 1)

/-- Variable table of Farsi rule 3, src/obfuscation.rs 1707-1726. -/
def faVarPairs : List (String × String) :=
  [("file", "fayel"), ("data", "dadeh"), ("user", "karbar"), ("path", "masir"),
   ("time", "zaman"), ("name", "nam"), ("count", "shomareh"), ("input", "vorudi"),
   ("output", "khoroji"), ("result", "natijeh"), ("error", "khata"),
   ("command", "dastur"), ("system", "sistem"), ("process", "pardazesh"),
   ("log", "sabt"), ("memory", "hafezeh"), ("network", "shabakeh"),
   ("value", "meghdar")]

/-- Variable loop of Farsi rule 3, src/obfuscation.rs 1729-1761. -/
def faVarLoop : List (String × String) → String → Rng → String × Rng
  | [], m, r => (m, r)
  | (eng, per) :: rest, m, r =>
    if strContains m eng then
      let (b, r) := chanceDraw 4 10 r
      if b then
        let pats := [" " ++ eng ++ " ", eng ++ "=", " " ++ eng ++ "=",
                     " " ++ eng ++ "\n", " " ++ eng ++ ")"]
        (faApplyPat m pats per, r)
      else faVarLoop rest m r
    else faVarLoop rest m r
where
  /-- Replacement text depends on the pattern's last character
  (src/obfuscation.rs 1740-1757). -/
  faApplyPat : String → List String → String → String
    | m, [], _ => m
    | m, p :: ps, per =>
      if strContains m p then
        if strEnds p "=" then strReplace m p (per ++ "=")
        else if strEnds p "\n" then strReplace m p (" " ++ per ++ "\n")
        else if strEnds p ")" then strReplace m p (" " ++ per ++ ")")
        else strReplace m p (" " ++ per ++ " ")
      else faApplyPat m ps per

/-- Per-character slips of Farsi rule 4, src/obfuscation.rs 1771-1791 (the
roll is the guard of the matching arm). -/
def faRule4Char (c : Char) (r : Rng) : Char × Rng :=
  if c = 'w' then let (b, r) := chanceDraw 5 10 r; (if b then 'ش' else c, r)
  else if c = 'e' then let (b, r) := chanceDraw 5 10 r; (if b then 'ث' else c, r)
  else if c = 'r' then let (b, r) := chanceDraw 5 10 r; (if b then 'ق' else c, r)
  else if c = ',' then let (b, r) := chanceDraw 7 10 r; (if b then '،' else c, r)
  else if c = ';' then let (b, r) := chanceDraw 7 10 r; (if b then '؛' else c, r)
  else if c = '?' then let (b, r) := chanceDraw 7 10 r; (if b then '؟' else c, r)
  else if c = 'a' then let (b, r) := chanceDraw 4 10 r; (if b then 'ش' else c, r)
  else if c = 's' then let (b, r) := chanceDraw 4 10 r; (if b then 'س' else c, r)
  else if c = 'd' then let (b, r) := chanceDraw 4 10 r; (if b then 'ی' else c, r)
  else if c = 'f' then let (b, r) := chanceDraw 4 10 r; (if b then 'ب' else c, r)
  else (c, r)

/-- Character loop of Farsi rule 4. -/
def faRule4Loop : List Char → Rng → List Char × Rng
  | [], r => ([], r)
  | c :: cs, r =>
    let (c, r) := faRule4Char c r
    let (rest, r) := faRule4Loop cs r
    (c :: rest, r)

/-- Day scan of Farsi rule 5, src/obfuscation.rs 1811-1845 (stops at the
first contained date of the current year/month). -/
def faDateDayLoop (year month : Nat) : List Nat → String → String
  | [], m => m
  | day :: rest, m =>
    let us := pad2 month ++ "/" ++ pad2 day ++ "/" ++ toString year
    if strContains m us then
      let persianDate :=
        String.mk ((toString year).data.map toPersianDigit) ++ "/" ++
        String.mk ((pad2 month).data.map toPersianDigit) ++ "/" ++
        String.mk ((pad2 day).data.map toPersianDigit)
      strReplace m us persianDate
    else faDateDayLoop year month rest m

/-- Number-block scan of Farsi rule 6, src/obfuscation.rs 1858-1878: byte
ranges of maximal digit runs at least 4 bytes long. -/
def faNumBlocksAux : List (Nat × Char) → Bool → Nat → List (Nat × Nat) →
    List (Nat × Nat) × Bool × Nat
  | [], inNum, start, acc => (acc, inNum, start)
  | (i, c) :: rest, inNum, start, acc =>
    if c.isDigit then
      if !inNum then faNumBlocksAux rest true i acc
      else faNumBlocksAux rest true start acc
    else if inNum then
      if i - start ≥ 4 then faNumBlocksAux rest false start (acc ++ [(start, i)])
      else faNumBlocksAux rest false start acc
    else faNumBlocksAux rest false start acc

/-- Thousands grouping of Farsi rule 6, src/obfuscation.rs 1886-1894:
separator inserted every third character, scanning from the right. -/
def faGroupAux : List Char → Nat → List Char
  | [], _ => []
  | c :: cs, i =>
    if i > 0 ∧ i % 3 = 0 then '٬' :: c :: faGroupAux cs (i + 1)
    else c :: faGroupAux cs (i + 1)

/-- Src/obfuscation.rs 1563-1906 `add_farsi_fingerprints`. -/
def addFarsiFingerprints (text : String) (rng : Rng) : String × Rng :=
  let m := text
  -- 1. Persian numeral substitution (15% chance, up to 4 digits)
  let (b1, rng) := chanceDraw 15 100 rng
  let (m, rng) :=
    if b1 then
      let chars := m.data
      let positions := faDigitPosAux chars chars.length chars 0
      if !positions.isEmpty then
        let (shuffled, rng) := shuffleDraw positions rng
        let out := (shuffled.take (min positions.length 4)).foldl (fun cs pos =>
          cs.set pos (toPersianDigit (cs.getD pos ' '))) chars
        (⟨out⟩, rng)
      else (m, rng)
    else (m, rng)
  -- 2. Directional controls (10% chance, one of three strategies)
  let (b2, rng) := chanceDraw 10 100 rng
  let (m, rng) :=
    if b2 then
      let rtlMark := String.singleton (Char.ofNat 0x200F)
      let rtlEmbed := String.singleton (Char.ofNat 0x202B)
      let rtlOverride := String.singleton (Char.ofNat 0x202E)
      let popDir := String.singleton (Char.ofNat 0x202C)
      let (strat, rng) := rangeInclDraw 0 2 rng
      if strat = 0 then (rtlMark ++ m, rng)
      else if strat = 1 then
        if strContains m (String.singleton (Char.ofNat 34)) then
          let parts := splitOnStr m (String.singleton (Char.ofNat 34))
          let out := (parts.enum.map (fun (i, part) =>
            if i > 0 ∧ i % 2 = 1 then
              String.singleton (Char.ofNat 34) ++ rtlMark ++ part ++ rtlMark
            else
              part ++ (if i < parts.length - 1 ∧ i % 2 = 0
                       then String.singleton (Char.ofNat 34) else ""))).foldl (· ++ ·) ""
          (out, rng)
        else
          let pos := strLen m / 2
          if pos < strLen m then (sliceTo m pos ++ rtlMark ++ sliceFrom m pos, rng)
          else (m, rng)
      else
        if strContains m "|" then
          let parts := splitOnStr m "|"
          let out := (parts.enum.map (fun (i, part) =>
            if i > 0 then "|" ++ rtlEmbed ++ part ++ popDir else part)).foldl (· ++ ·) ""
          (out, rng)
        else (rtlOverride ++ m ++ popDir, rng)
    else (m, rng)
  -- 3. Variable transliteration (12% chance)
  let (b3, rng) := chanceDraw 12 100 rng
  let (m, rng) := if b3 then faVarLoop faVarPairs m rng else (m, rng)
  -- 4. Persian keyboard slips (8% chance, applied only when 1-3 chars changed)
  let (b4, rng) := chanceDraw 8 100 rng
  let (m, rng) :=
    if b4 then
      let (result, rng) := faRule4Loop m.data rng
      let diffCount := ((result.zip m.data).filter (fun p => p.1 ≠ p.2)).length
      (if diffCount > 0 ∧ diffCount ≤ 3 then (⟨result⟩ : String) else m, rng)
    else (m, rng)
  -- 5. Persian date format (9% chance)
  let (b5, rng) := chanceDraw 9 100 rng
  let (m, rng) :=
    if b5 then
      let m := if strContains m "02/28/2025"
               then strReplace m "02/28/2025" "۲۰۲۵/۰۲/۲۸" else m
      let m := [2022, 2023, 2024, 2025, 2026].foldl (fun m year =>
        ((List.range 12).map (· + 1)).foldl (fun m month =>
          faDateDayLoop year month ((List.range 31).map (· + 1)) m) m) m
      (m, rng)
    else (m, rng)
  -- 6. Persian thousands separator (4% chance)
  let (b6, rng) := chanceDraw 4 100 rng
  if b6 then
    if m.data.any (fun c => c.isDigit) then
      let (blocks, inNum, start) := faNumBlocksAux (charIndicesOf m) false 0 []
      let blocks := if inNum ∧ strLen m - start ≥ 4 then blocks ++ [(start, strLen m)]
                    else blocks
      if !blocks.isEmpty then
        let (b, rng) := chanceDraw 7 10 rng
        if b then
          let ((start, stop), rng) := chooseDraw blocks (0, 0) rng
          let number := sliceRange m start stop
          let formatted := String.mk (faGroupAux number.data.reverse 0).reverse
          (sliceTo m start ++ formatted ++ sliceFrom m stop, rng)
        else (m, rng)
      else (m, rng)
    else (m, rng)
  else (m, rng)

/-- Arabic-Indic digit map of src/obfuscation.rs 1916-1927 and 2196-2218. -/
def toArabicDigit (c : Char) : Char :=
  if c = '0' then '٠' else if c = '1' then '١' else if c = '2' then '٢'
  else if c = '3' then '٣' else if c = '4' then '٤' else if c = '5' then '٥'
  else if c = '6' then '٦' else if c = '7' then '٧' else if c = '8' then '٨'
  else if c = '9' then '٩' else c

/-- Punctuation table of Arabic rule 2, src/obfuscation.rs 1974-1981 (note
the two entries for the double quote: a failed roll on the first falls
through to the second). -/
def arPunctPairs : List (Char × Char) :=
  [(',', '،'), (';', '؛'), ('?', '؟'), (Char.ofNat 34, '«'), (Char.ofNat 34, '»'),
   ('!', '!')]

/-- Character loop of Arabic rule 2, src/obfuscation.rs 1984-2003. -/
def arRule2Loop : List Char → Rng → List Char × Rng
  | [], r => ([], r)
  | c :: cs, r =>
    match charPairDraw 8 10 arPunctPairs c r with
    | (some rp, r) =>
      let (rest, r) := arRule2Loop cs r
      (rp :: rest, r)
    | (none, r) =>
      let (rest, r) := arRule2Loop cs r
      (c :: rest, r)

/-- First maximal digit run of Arabic rule 3 strategy 5,
src/obfuscation.rs 2074-2089 (character indices, used by the source as
byte offsets when slicing). -/
def firstDigitRunAux : List Char → Nat → Option (Nat × Nat)
  | [], _ => none
  | c :: rest, i =>
    if c.isDigit then some (i, i + 1 + (rest.takeWhile (fun d => d.isDigit)).length)
    else firstDigitRunAux rest (i + 1)

/-- Variable table of Arabic rule 4, src/obfuscation.rs 2103-2129. -/
def arVarPairs : List (String × String) :=
  [("file", "malaf"), ("test", "tajriba"), ("data", "bayanat"),
   ("user", "mustakhdim"), ("output", "kharj"), ("input", "dakhl"),
   ("time", "waqt"), ("date", "tarikh"), ("name", "ism"), ("path", "masar"),
   ("count", "adad"), ("error", "khata"), ("password", "kalimat sirr"),
   ("command", "amr"), ("system", "nizam"), ("directory", "mujallad"),
   ("search", "bahth"), ("find", "ijad"), ("create", "insha"),
   ("delete", "hadhf"), ("copy", "naskh"), ("move", "naql"), ("text", "nass"),
   ("code", "sifra"), ("list", "qaima")]

/-- Variable loop of Arabic rule 4, src/obfuscation.rs 2132-2159. -/
def arVarLoop : List (String × String) → String → Rng → String × Rng
  | [], m, r => (m, r)
  | (eng, ar) :: rest, m, r =>
    if strContains m eng then
      let (b, r) := chanceDraw 5 10 r
      if b then
        let pats := [" " ++ eng ++ " ", eng ++ "=", " " ++ eng ++ "=",
                     " " ++ eng ++ "\n", " " ++ eng ++ ":", " " ++ eng ++ ", ",
                     " " ++ eng ++ "-", "--" ++ eng, "-" ++ eng, "$" ++ eng]
        (wordSubLoop.applyFirstPat m pats eng ar, r)
      else arVarLoop rest m r
    else arVarLoop rest m r

/-- Day scan of Arabic rule 5, src/obfuscation.rs 2181-2225 (first contained
format of the current month/day wins). -/
def arDateFmtLoop (month day : Nat) : List String → String → String
  | [], m => m
  | us :: rest, m =>
    if strContains m us then
      let d := pad2 day
      let mo := pad2 month
      let y := sliceFrom us (strRfindD us '/' + 1)
      let arDate := String.mk (d.data.map toArabicDigit) ++ "-" ++
        String.mk (mo.data.map toArabicDigit) ++ "-" ++
        String.mk (y.data.map toArabicDigit)
      strReplace m us arDate
    else arDateFmtLoop month day rest m

/-- Vocabulary table of Arabic rule 7, src/obfuscation.rs 2303-2323. -/
def arWordPairs : List (String × String) :=
  [("file", "ملف"), ("directory", "مجلد"), ("folder", "مجلد"),
   ("user", "مستخدم"), ("password", "كلمة مرور"), ("command", "أمر"),
   ("search", "بحث"), ("find", "إيجاد"), ("error", "خطأ"), ("help", "مساعدة"),
   ("print", "طباعة"), ("save", "حفظ"), ("open", "فتح"), ("close", "إغلاق"),
   ("exit", "خروج"), ("yes", "نعم"), ("no", "لا"), ("please", "من فضلك"),
   ("thanks", "شكرا")]

/-- Src/obfuscation.rs 1909-2353 `add_arabic_fingerprints`. -/
def addArabicFingerprints (text : String) (rng : Rng) : String × Rng :=
  let m := text
  -- 1. Arabic-Indic numeral substitution (25% chance, up to 5 digits)
  let (b1, rng) := chanceDraw 25 100 rng
  let (m, rng) :=
    if b1 then
      let chars := m.data
      let positions := faDigitPosAux chars chars.length chars 0
      if !positions.isEmpty then
        let (shuffled, rng) := shuffleDraw positions rng
        let out := (shuffled.take (min positions.length 5)).foldl (fun cs pos =>
          cs.set pos (toArabicDigit (cs.getD pos ' '))) chars
        (⟨out⟩, rng)
      else (m, rng)
    else (m, rng)
  -- 2. Arabic punctuation (20% chance)
  let (b2, rng) := chanceDraw 20 100 rng
  let (m, rng) :=
    if b2 then
      let (out, rng) := arRule2Loop m.data rng
      ((⟨out⟩ : String), rng)
    else (m, rng)
  -- 3. Directional controls (18% chance, one of six strategies)
  let (b3, rng) := chanceDraw 18 100 rng
  let (m, rng) :=
    if b3 then
      let rtlMark := String.singleton (Char.ofNat 0x200F)
      let rtlEmbed := String.singleton (Char.ofNat 0x202B)
      let popDir := String.singleton (Char.ofNat 0x202C)
      let ltrMark := String.singleton (Char.ofNat 0x200E)
      let quote := String.singleton (Char.ofNat 34)
      let (strat, rng) := rangeInclDraw 0 5 rng
      if strat = 0 then (rtlMark ++ m ++ rtlMark, rng)
      else if strat = 1 then
        match strFind m " " with
        | some pos => (sliceTo m pos ++ " " ++ rtlMark ++ sliceFrom m (pos + 1), rng)
        | none => (rtlMark ++ m, rng)
      else if strat = 2 then
        match strFind m quote with
        | some start =>
          match strFind (sliceFrom m (start + 1)) quote with
          | some stop =>
            (sliceTo m (start + 1) ++ rtlEmbed ++
             sliceRange m (start + 1) (start + 1 + stop) ++ popDir ++
             sliceFrom m (start + 1 + stop), rng)
          | none => (rtlMark ++ m ++ rtlMark, rng)
        | none => (rtlMark ++ m ++ rtlMark, rng)
      else if strat = 3 then
        (arStrategy4Loop ["file", "path", "user", "data", "name", "error", "command"]
          m rtlMark, rng)
      else if strat = 4 then
        match firstDigitRunAux m.data 0 with
        | some (i, j) =>
          let num := sliceRange m i j
          (strReplace m num (rtlMark ++ num ++ rtlMark), rng)
        | none => (m, rng)
      else (rtlMark ++ ltrMark ++ m ++ rtlMark ++ ltrMark, rng)
    else (m, rng)
  -- 4. Variable transliteration (18% chance)
  let (b4, rng) := chanceDraw 18 100 rng
  let (m, rng) := if b4 then arVarLoop arVarPairs m rng else (m, rng)
  -- 5. Arabic date format (15% chance)
  let (b5, rng) := chanceDraw 15 100 rng
  let (m, rng) :=
    if b5 then
      let m := if strContains m "02/28/2025"
               then strReplace m "02/28/2025" "٢٨-٠٢-٢٠٢٥" else m
      let m := ((List.range 12).map (· + 1)).foldl (fun m month =>
        ((List.range 31).map (· + 1)).foldl (fun m day =>
          if (month = 2 ∧ day > 29) ∨
             ((month = 4 ∨ month = 6 ∨ month = 9 ∨ month = 11) ∧ day > 30) then m
          else
            arDateFmtLoop month day
              [pad2 month ++ "/" ++ pad2 day ++ "/2023",
               pad2 month ++ "/" ++ pad2 day ++ "/2024",
               pad2 month ++ "/" ++ pad2 day ++ "/2025"] m) m) m
      (m, rng)
    else (m, rng)
  -- 6. Tatweel stretching (8% chance)
  let (b6, rng) := chanceDraw 8 100 rng
  let (m, rng) :=
    if b6 then
      let quote := String.singleton (Char.ofNat 34)
      if strContains m quote then
        let parts := splitOnStr m quote
        if parts.length ≥ 3 then
          let out := (parts.enum.map (fun (i, part) =>
            (if i > 0 ∧ i % 2 = 1 then
              if strContains part " " then strReplace part " " " ـ "
              else if part ≠ "" then
                let pos := strLen part / 2
                sliceTo part pos ++ String.singleton 'ـ' ++ sliceFrom part pos
              else part
            else part) ++
            (if i < parts.length - 1 ∧ i % 2 = 0 then quote else ""))).foldl (· ++ ·) ""
          (out, rng)
        else (m, rng)
      else if strContains m "=" || strContains m "-" then
        let parts := if strContains m "=" then splitOnStr m "=" else splitOnStr m "-"
        if parts.length ≥ 2 then
          ((parts.headD "") ++ String.singleton 'ـ' ++
           (if strContains m "=" then "=" else " -") ++
           String.join (parts.drop 1), rng)
        else (m, rng)
      else (m, rng)
    else (m, rng)
  -- 7. Arabic word substitutions (15% chance)
  let (b7, rng) := chanceDraw 15 100 rng
  if b7 then wordSubLoop arWordPairs m rng else (m, rng)
where
  /-- Special-word loop of strategy 4, src/obfuscation.rs 2055-2065. -/
  arStrategy4Loop : List String → String → String → String
    | [], m, _ => m
    | word :: rest, m, rtlMark =>
      if strContains m word then
        strReplace m (" " ++ word ++ " ") (" " ++ rtlMark ++ word ++ rtlMark ++ " ")
      else arStrategy4Loop rest m rtlMark

/-- Per-character y/z swaps of German rule 1, src/obfuscation.rs 2367-2379. -/
def deRule1Char (c : Char) (r : Rng) : Char × Rng :=
  if c = 'y' then let (b, r) := chanceDraw 8 10 r; (if b then 'z' else c, r)
  else if c = 'Y' then let (b, r) := chanceDraw 8 10 r; (if b then 'Z' else c, r)
  else if c = 'z' then let (b, r) := chanceDraw 8 10 r; (if b then 'y' else c, r)
  else if c = 'Z' then let (b, r) := chanceDraw 8 10 r; (if b then 'Y' else c, r)
  else (c, r)

/-- Character loop of German rule 1. -/
def deRule1Loop : List Char → Rng → List Char × Rng
  | [], r => ([], r)
  | c :: cs, r =>
    let (c, r) := deRule1Char c r
    let (rest, r) := deRule1Loop cs r
    (c :: rest, r)

/-- Date scan of German rule 2, src/obfuscation.rs 2394-2421 (every
contained format is rewritten; no early exit). -/
def deDateFmtLoop (month day : Nat) : List String → String → String
  | [], m => m
  | us :: rest, m =>
    let m :=
      if strContains m us then
        strReplace m us (pad2 day ++ "." ++ pad2 month ++ "." ++
          sliceFrom us (strLen us - 4))
      else m
    deDateFmtLoop month day rest m

/-- Umlaut table of German rule 3, src/obfuscation.rs 2427-2437. -/
def deUmlautPairs : List (String × String) :=
  [("ae", "ä"), ("oe", "ö"), ("ue", "ü"), ("Ae", "Ä"), ("Oe", "Ö"),
   ("Ue", "Ü"), ("ss", "ß"), ("Ess", "Eß")]

/-- Word list of German rule 3's third attempt, src/obfuscation.rs 2459. -/
def deUmlautWords : List String :=
  ["datae", "parameter", "process", "user", "password", "messssage", "issue"]

/-- Inner word scan of German rule 3, src/obfuscation.rs 2459-2464. -/
def deRule3WordLoop : List String → String → String → String → String
  | [], m, _, _ => m
  | word :: rest, m, f, rep =>
    if strContains m word && strContains word f
    then strReplace m word (strReplace word f rep)
    else deRule3WordLoop rest m f rep

/-- Third attempt of a German rule 3 pair, src/obfuscation.rs 2457-2465. -/
def deRule3P3 (m f rep : String) (r : Rng) : String × Rng :=
  if f = "ae" ∨ f = "oe" ∨ f = "ue" ∨ f = "ss" then
    let (b, r) := chanceDraw 5 10 r
    if b then (deRule3WordLoop deUmlautWords m f rep, r) else (m, r)
  else (m, r)

/-- Second attempt of a German rule 3 pair, src/obfuscation.rs 2450-2454. -/
def deRule3P2 (m f rep : String) (r : Rng) : String × Rng :=
  if strContains m (" " ++ f) then
    let (b, r) := chanceDraw 6 10 r
    if b then (strReplace m (" " ++ f) (" " ++ rep), r)
    else deRule3P3 m f rep r
  else deRule3P3 m f rep r

/-- One pair of German rule 3, src/obfuscation.rs 2440-2467. -/
def deRule3Pair (m f rep : String) (r : Rng) : String × Rng :=
  if strContains m f then
    if strContains m (" " ++ f ++ " ") then
      let (b, r) := chanceDraw 6 10 r
      if b then (strReplace m (" " ++ f ++ " ") (" " ++ rep ++ " "), r)
      else deRule3P2 m f rep r
    else deRule3P2 m f rep r
  else (m, r)

/-- Per-character symbol slips of German rule 4, src/obfuscation.rs 2475-2485. -/
def deRule4Char (c : Char) (r : Rng) : Char × Rng :=
  if c = ';' then let (b, r) := chanceDraw 6 10 r; (if b then 'ö' else c, r)
  else if c = Char.ofNat 39 then let (b, r) := chanceDraw 6 10 r; (if b then 'ä' else c, r)
  else if c = '[' then let (b, r) := chanceDraw 6 10 r; (if b then 'ü' else c, r)
  else if c = ']' then let (b, r) := chanceDraw 6 10 r; (if b then '+' else c, r)
  else if c = '/' then let (b, r) := chanceDraw 3 10 r; (if b then '-' else c, r)
  else if c = '\\' then let (b, r) := chanceDraw 3 10 r; (if b then '#' else c, r)
  else if c = '=' then let (b, r) := chanceDraw 3 10 r; (if b then '´' else c, r)
  else (c, r)

/-- Character loop of German rule 4. -/
def deRule4Loop : List Char → Rng → List Char × Rng
  | [], r => ([], r)
  | c :: cs, r =>
    let (c, r) := deRule4Char c r
    let (rest, r) := deRule4Loop cs r
    (c :: rest, r)

/-- Vocabulary table of German rule 5, src/obfuscation.rs 2493-2509. -/
def deWordPairs : List (String × String) :=
  [("file", "datei"), ("directory", "verzeichnis"), ("folder", "ordner"),
   ("user", "benutzer"), ("password", "passwort"), ("command", "befehl"),
   ("search", "suche"), ("find", "finden"), ("error", "fehler"),
   ("help", "hilfe"), ("print", "drucken"), ("save", "speichern"),
   ("open", "öffnen"), ("close", "schließen"), ("exit", "beenden")]

/-- Src/obfuscation.rs 2357-2540 `add_german_fingerprints`. -/
def addGermanFingerprints (text : String) (rng : Rng) : String × Rng :=
  let m := text
  -- 1. Keyboard y/z slips (25% chance)
  let (b1, rng) := chanceDraw 25 100 rng
  let (m, rng) :=
    if b1 then
      let (out, rng) := deRule1Loop m.data rng
      ((⟨out⟩ : String), rng)
    else (m, rng)
  -- 2. German date format (20% chance)
  let (b2, rng) := chanceDraw 20 100 rng
  let m :=
    if b2 then
      let m := if strContains m "02/28/2025"
               then strReplace m "02/28/2025" "28.02.2025" else m
      ((List.range 12).map (· + 1)).foldl (fun m month =>
        ((List.range 31).map (· + 1)).foldl (fun m day =>
          if (month = 2 ∧ day > 29) ∨
             ((month = 4 ∨ month = 6 ∨ month = 9 ∨ month = 11) ∧ day > 30) then m
          else
            deDateFmtLoop month day
              [pad2 month ++ "/" ++ pad2 day ++ "/2023",
               pad2 month ++ "/" ++ pad2 day ++ "/2024",
               pad2 month ++ "/" ++ pad2 day ++ "/2025",
               toString month ++ "/" ++ toString day ++ "/2023",
               toString month ++ "/" ++ toString day ++ "/2024",
               toString month ++ "/" ++ toString day ++ "/2025"] m) m) m
    else m
  -- 3. Umlaut digraph slips (18% chance)
  let (b3, rng) := chanceDraw 18 100 rng
  let (m, rng) :=
    if b3 then
      deUmlautPairs.foldl (fun (acc : String × Rng) p =>
        deRule3Pair acc.1 p.1 p.2 acc.2) (m, rng)
    else (m, rng)
  -- 4. Symbol keyboard slips (15% chance)
  let (b4, rng) := chanceDraw 15 100 rng
  let (m, rng) :=
    if b4 then
      let (out, rng) := deRule4Loop m.data rng
      ((⟨out⟩ : String), rng)
    else (m, rng)
  -- 5. German word substitutions (12% chance)
  let (b5, rng) := chanceDraw 12 100 rng
  if b5 then wordSubLoop deWordPairs m rng else (m, rng)

/-- Per-character AZERTY slips of French rule 1, src/obfuscation.rs 2553-2576. -/
def frRule1Char (c : Char) (r : Rng) : Char × Rng :=
  if c = 'q' then let (b, r) := chanceDraw 8 10 r; (if b then 'a' else c, r)
  else if c = 'Q' then let (b, r) := chanceDraw 8 10 r; (if b then 'A' else c, r)
  else if c = 'a' then let (b, r) := chanceDraw 8 10 r; (if b then 'q' else c, r)
  else if c = 'A' then let (b, r) := chanceDraw 8 10 r; (if b then 'Q' else c, r)
  else if c = 'w' then let (b, r) := chanceDraw 8 10 r; (if b then 'z' else c, r)
  else if c = 'W' then let (b, r) := chanceDraw 8 10 r; (if b then 'Z' else c, r)
  else if c = 'z' then let (b, r) := chanceDraw 8 10 r; (if b then 'w' else c, r)
  else if c = 'Z' then let (b, r) := chanceDraw 8 10 r; (if b then 'W' else c, r)
  else if c = 'm' then let (b, r) := chanceDraw 5 10 r; (if b then ',' else c, r)
  else if c = ',' then let (b, r) := chanceDraw 5 10 r; (if b then 'm' else c, r)
  else if c = '.' then let (b, r) := chanceDraw 5 10 r; (if b then '/' else c, r)
  else if c = '/' then let (b, r) := chanceDraw 5 10 r; (if b then ':' else c, r)
  else if c = '1' then let (b, r) := chanceDraw 4 10 r; (if b then '&' else c, r)
  else if c = '2' then let (b, r) := chanceDraw 4 10 r; (if b then 'é' else c, r)
  else if c = '3' then let (b, r) := chanceDraw 4 10 r; (if b then Char.ofNat 34 else c, r)
  else if c = '4' then let (b, r) := chanceDraw 4 10 r; (if b then Char.ofNat 39 else c, r)
  else if c = '5' then let (b, r) := chanceDraw 4 10 r; (if b then '(' else c, r)
  else if c = '6' then let (b, r) := chanceDraw 4 10 r; (if b then '-' else c, r)
  else if c = '0' then let (b, r) := chanceDraw 4 10 r; (if b then 'à' else c, r)
  else (c, r)

/-- Character loop of French rule 1. -/
def frRule1Loop : List Char → Rng → List Char × Rng
  | [], r => ([], r)
  | c :: cs, r =>
    let (c, r) := frRule1Char c r
    let (rest, r) := frRule1Loop cs r
    (c :: rest, r)

/-- Punctuation spacing table of French rule 2, src/obfuscation.rs 2587-2595. -/
def frPunctPairs : List (String × String) :=
  [("!", " !"), ("?", " ?"), (":", " :"), (";", " ;"), ("»", " »"),
   ("«", "« "), ("%", " %")]

/-- The URL-aware colon branch of French rule 2, src/obfuscation.rs 2603-2619. -/
def frColonHttp (m : String) : String :=
  let parts := splitOnStr m "http"
  if parts.length > 1 then
    (parts.drop 1).enum.foldl (fun acc (i, part) =>
      (acc ++ (if i > 0 ∨ parts.headD "" ≠ "" then "http" else "")) ++
      (if strStarts part "s"
       then "s" ++ strReplace (sliceFrom part 1) ":" " :"
       else strReplace part ":" " :")) (parts.headD "")
  else m

/-- Punctuation loop of French rule 2, src/obfuscation.rs 2597-2625. -/
def frPunctLoop : List (String × String) → String → String
  | [], m => m
  | (mark, replacement) :: rest, m =>
    let m :=
      if strContains m mark && !strContains m replacement then
        if mark = ":" && (strContains m "http:" || strContains m "https:")
        then frColonHttp m
        else strReplace m mark replacement
      else m
    frPunctLoop rest m

/-- Accented word table of French rule 3, src/obfuscation.rs 2657-2669. -/
def frAccentWords : List (String × String) :=
  [("the", "thé"), ("here", "héré"), ("where", "whére"), ("more", "moré"),
   ("user", "usér"), ("data", "datà"), ("list", "lîst"), ("file", "fîle"),
   ("space", "spàce"), ("place", "plàce"), ("command", "commànd")]

/-- Word loop of French rule 3, src/obfuscation.rs 2672-2695. -/
def frAccentWordLoop : List (String × String) → String → Rng → String × Rng
  | [], m, r => (m, r)
  | (f, rep) :: rest, m, r =>
    if strContains m f then
      let (b, r) := chanceDraw 4 10 r
      if b then
        let pats := [" " ++ f ++ " ", " " ++ f, f ++ ".", f ++ ",", f ++ ":",
                     f ++ "!", f ++ "?"]
        (wordSubLoop.applyFirstPat m pats f rep, r)
      else frAccentWordLoop rest m r
    else frAccentWordLoop rest m r

/-- Letter table of French rule 3's second pass, src/obfuscation.rs 2643-2654. -/
def frAccentLetters : List (String × String) :=
  [("e", "é"), ("a", "à"), ("u", "ù"), ("c", "ç"), ("i", "î"), ("o", "ô"),
   ("e", "è"), ("a", "â"), ("u", "û"), ("e", "ê")]

/-- Letter loop of French rule 3's second pass, src/obfuscation.rs 2699-2716
(a position inside a command context does not stop the scan). -/
def frAccentLetterLoop : List (String × String) → String → Rng → String × Rng
  | [], m, r => (m, r)
  | (f, rep) :: rest, m, r =>
    if strContains m f then
      let (b, r) := chanceDraw 3 10 r
      if b then
        match strFind m f with
        | some pos =>
          if ¬(pos = 0 ∨
               (pos > 0 ∧ (m.data.getD (pos - 1) ' ' = ' ' ∨
                           m.data.getD (pos - 1) ' ' = '/' ∨
                           m.data.getD (pos - 1) ' ' = '-'))) then
            (sliceTo m pos ++ rep ++ sliceFrom m (pos + strLen f), r)
          else frAccentLetterLoop rest m r
        | none => frAccentLetterLoop rest m r
      else frAccentLetterLoop rest m r
    else frAccentLetterLoop rest m r

/-- Date scan of French rule 4, src/obfuscation.rs 2728-2755 (rewrites only
when the day is at most 12; no early exit). -/
def frDateFmtLoop (month day : Nat) : List String → String → String
  | [], m => m
  | us :: rest, m =>
    let m :=
      if strContains m us && day ≤ 12 then
        strReplace m us (pad2 day ++ "/" ++ pad2 month ++ "/" ++
          sliceFrom us (strRfindD us '/' + 1))
      else m
    frDateFmtLoop month day rest m

/-- Vocabulary table of French rule 5, src/obfuscation.rs 2761-2781. -/
def frWordPairs : List (String × String) :=
  [("file", "fichier"), ("directory", "répertoire"), ("folder", "dossier"),
   ("user", "utilisateur"), ("password", "mot de passe"),
   ("command", "commande"), ("search", "recherche"), ("find", "trouver"),
   ("error", "erreur"), ("help", "aide"), ("print", "imprimer"),
   ("save", "enregistrer"), ("open", "ouvrir"), ("close", "fermer"),
   ("exit", "quitter"), ("yes", "oui"), ("no", "non"),
   ("please", "s" ++ String.singleton (Char.ofNat 39) ++ "il vous plaît"),
   ("thanks", "merci")]

/-- Src/obfuscation.rs 2543-2812 `add_french_fingerprints`. -/
def addFrenchFingerprints (text : String) (rng : Rng) : String × Rng :=
  let m := text
  -- 1. AZERTY keyboard slips (25% chance)
  let (b1, rng) := chanceDraw 25 100 rng
  let (m, rng) :=
    if b1 then
      let (out, rng) := frRule1Loop m.data rng
      ((⟨out⟩ : String), rng)
    else (m, rng)
  -- 2. French punctuation spacing (22% chance)
  let (m, rng) :=
    let (b2, rng) := chanceDraw 22 100 rng
    if b2 then
      let m := frPunctLoop frPunctPairs m
      let m :=
        if strContains m "|" && !strContains m " | " then
          strReplace (strReplace m " | " "  |  ") "|" " | "
        else m
      if strContains m ". " && !strContains m ".  " then
        let (b, rng) := chanceDraw 6 10 rng
        (if b then strReplace m ". " ".  " else m, rng)
      else (m, rng)
    else (m, rng)
  -- 3. French accents (16% chance)
  let (m, rng) :=
    let (b3, rng) := chanceDraw 16 100 rng
    if b3 then
      let (m, rng) := frAccentWordLoop frAccentWords m rng
      let (b, rng) := chanceDraw 5 10 rng
      if b then frAccentLetterLoop frAccentLetters m rng else (m, rng)
    else (m, rng)
  -- 4. French date format (15% chance)
  let (b4, rng) := chanceDraw 15 100 rng
  let m :=
    if b4 then
      let m := if strContains m "02/28/2025"
               then strReplace m "02/28/2025" "28/02/2025" else m
      ((List.range 12).map (· + 1)).foldl (fun m month =>
        ((List.range 31).map (· + 1)).foldl (fun m day =>
          if (month = 2 ∧ day > 29) ∨
             ((month = 4 ∨ month = 6 ∨ month = 9 ∨ month = 11) ∧ day > 30) then m
          else
            frDateFmtLoop month day
              [pad2 month ++ "/" ++ pad2 day ++ "/2023",
               pad2 month ++ "/" ++ pad2 day ++ "/2024",
               pad2 month ++ "/" ++ pad2 day ++ "/2025",
               toString month ++ "/" ++ toString day ++ "/2023",
               toString month ++ "/" ++ toString day ++ "/2024",
               toString month ++ "/" ++ toString day ++ "/2025"] m) m) m
    else m
  -- 5. French word substitutions (12% chance)
  let (b5, rng) := chanceDraw 12 100 rng
  if b5 then wordSubLoop frWordPairs m rng else (m, rng)

/-! ## The language transformer (src/obfuscation.rs 605-760, 2830-3249) -/

/-- Language transformer state, src/obfuscation.rs 607-612.  The `language`
field is the primary language subtag of the parsed `LanguageIdentifier`
(for example both "fa" and "fa-IR" parse to subtag "fa"). -/
structure LanguageTransformer where
  dictionary : List (String × String)
  language : String
  attribution_region : String
  deriving DecidableEq

/-- Src/obfuscation.rs 657-660 `LanguageTransformer::is_rtl`. -/
def LanguageTransformer.is_rtl (t : LanguageTransformer) : Bool :=
  t.language = "ar" || t.language = "fa"

/-- German dictionary, src/obfuscation.rs 2830-2841. -/
def german_dictionary : List (String × String) :=
  [("hello", "hallo"), ("world", "welt"), ("yes", "ja"), ("no", "nein"),
   ("please", "bitte"), ("thank", "danke"), ("you", "du"),
   ("goodbye", "auf wiedersehen")]

/-- Farsi dictionary, src/obfuscation.rs 3159-3248. -/
def farsi_dictionary : List (String × String) :=
  [("hello", "سلام"), ("world", "جهان"), ("yes", "بله"), ("no", "نه"),
   ("please", "لطفا"), ("thank", "متشکرم"), ("you", "شما"),
   ("goodbye", "خداحافظ"), ("welcome", "خوش آمدید"), ("sorry", "ببخشید"),
   ("friend", "دوست"), ("today", "امروز"), ("tomorrow", "فردا"),
   ("yesterday", "دیروز"), ("morning", "صبح"), ("evening", "عصر"),
   ("night", "شب"), ("how", "چطور"), ("what", "چه"), ("why", "چرا"),
   ("where", "کجا"), ("when", "چه وقت"), ("who", "چه کسی"), ("good", "خوب"),
   ("bad", "بد"), ("ok", "باشه"), ("cool", "باحال"), ("awesome", "عالی"),
   ("dude", "داداش"), ("guy", "آقا"), ("bye", "بای"),
   ("password", "رمز عبور"), ("security", "امنیت"), ("network", "شبکه"),
   ("hack", "هک"), ("computer", "کامپیوتر"), ("system", "سیستم"),
   ("software", "نرم‌افزار"), ("hardware", "سخت‌افزار"),
   ("database", "پایگاه داده"), ("server", "سرور"), ("firewall", "فایروال"),
   ("encryption", "رمزگذاری"), ("decryption", "رمزگشایی"),
   ("malware", "بدافزار"), ("virus", "ویروس"), ("trojan", "تروجان"),
   ("phishing", "فیشینگ"), ("authentication", "احراز هویت"),
   ("access", "دسترسی"), ("user", "کاربر"), ("admin", "مدیر"),
   ("download", "دانلود"), ("upload", "آپلود"), ("connection", "ارتباط"),
   ("protect", "محافظت"), ("attack", "حمله"), ("defense", "دفاع"),
   ("breach", "نقض"), ("exploit", "استثمار"), ("vulnerable", "آسیب‌پذیر"),
   ("secure", "امن"), ("log", "لاگ"), ("backdoor", "درب پشتی"),
   ("keylogger", "کی‌لاگر"), ("ransomware", "باج‌افزار"),
   ("spyware", "جاسوس‌افزار"), ("threat", "تهدید"),
   ("vulnerability", "آسیب‌پذیری"), ("patch", "وصله"),
   ("update", "به‌روزرسانی"), ("code", "کد"), ("programmer", "برنامه‌نویس"),
   ("developer", "توسعه‌دهنده"), ("website", "وب‌سایت"), ("browser", "مرورگر"),
   ("email", "ایمیل"), ("data", "داده"), ("information", "اطلاعات"),
   ("identity", "هویت"), ("account", "حساب کاربری")]

/-- Common Unix commands protected by the context pass,
src/obfuscation.rs 796-797. -/
def commonCommands : List String :=
  ["ls", "grep", "find", "cat", "head", "tail", "cp", "mv", "rm", "mkdir",
   "chmod", "chown", "ps", "top", "df", "du", "ssh", "scp", "curl", "wget"]

/-- Byte indices of the non-overlapping occurrences of literal `pat`
(Rust `str::match_indices` with a `&str` pattern). -/
def matchIndicesAux : Nat → List Char → List Char → Nat → List (Nat × List Char)
  | 0, _, _, _ => []
  | fuel + 1, l, pat, ofs =>
    match l with
    | [] => []
    | c :: cs =>
      if pat.isPrefixOf (c :: cs) ∧ ¬pat.isEmpty then
        (ofs, pat) :: matchIndicesAux fuel ((c :: cs).drop pat.length) pat (ofs + byteLen pat)
      else matchIndicesAux fuel cs pat (ofs + c.utf8Size)

/-- Rust `str::match_indices` with a literal pattern. -/
def matchIndicesOf (s pat : String) : List (Nat × String) :=
  (matchIndicesAux s.data.length s.data pat.data 0).map (fun p => (p.1, ⟨p.2⟩))

/-- Src/obfuscation.rs 757-816 `identify_protected_contexts`.  The flag
pattern is the literal tail of the source's (non-regex) pattern string:
`match_indices` searches for that exact text.  The text itself is returned
unchanged. -/
def identifyProtectedContexts (text : String) : List (String × Bool) × String :=
  -- 1. command flags
  let parts1 := (matchIndicesOf text "-[a-zA-Z]|\\s--[a-zA-Z-]+").map (fun p => (p.2, true))
  -- 2. file paths, URLs and version-number-like tokens
  let parts2 := (splitWhitespace text).foldl (fun acc part =>
    let acc := if strContains part "/" && !strStarts part "http"
               then acc ++ [(part, true)] else acc
    let acc := if strStarts part "http://" || strStarts part "https://"
               then acc ++ [(part, true)] else acc
    let numDots := (part.data.filter (fun c => c = '.')).length
    let numDigits := (part.data.filter (fun c => c.isDigit)).length
    if part.data.any (fun c => c.isDigit) && strContains part "." &&
       (1 ≤ numDots ∧ numDots ≤ 2 ∧ 2 ≤ numDigits)
    then acc ++ [(part, true)] else acc) parts1
  -- 3. common commands at the beginning and after a pipe
  let parts3 := commonCommands.foldl (fun acc cmd =>
    if strStarts text cmd &&
       (strLen text = strLen cmd || rustWhitespace (text.data.getD (strLen cmd) ' '))
    then acc ++ [(cmd, true)] else acc) parts2
  let parts4 := commonCommands.foldl (fun acc cmd =>
    if strContains text ("| " ++ cmd) then acc ++ [(cmd, true)] else acc) parts3
  (parts4, text)

/-- Src/obfuscation.rs 819-823 `restore_protected_parts`: the identity on
the text, the protection list is discarded. -/
def restoreProtectedParts (text : String) (_protected_parts : List (String × Bool)) :
    String := text

/-- The seven attribution regions with a fingerprint rule block
(the match arms of src/obfuscation.rs 741-750). -/
def fingerprintRegions : List String := ["ru", "zh", "ko", "fa", "ar", "de", "fr"]

/-- Src/obfuscation.rs 736-754 `add_attribution_fingerprints_with_context`. -/
def addAttributionFingerprintsWithContext (t : LanguageTransformer) (text : String)
    (rng : Rng) : String × Rng :=
  let pr := identifyProtectedContexts text
  let (fp, rng) :=
    if t.attribution_region = "ru" then addRussianFingerprints pr.2 rng
    else if t.attribution_region = "zh" then addChineseFingerprints pr.2 rng
    else if t.attribution_region = "ko" then addKoreanFingerprints pr.2 rng
    else if t.attribution_region = "fa" then addFarsiFingerprints pr.2 rng
    else if t.attribution_region = "ar" then addArabicFingerprints pr.2 rng
    else if t.attribution_region = "de" then addGermanFingerprints pr.2 rng
    else if t.attribution_region = "fr" then addFrenchFingerprints pr.2 rng
    else (pr.2, rng)
  (restoreProtectedParts fp pr.1, rng)

/-- The dictionary-and-join stage of `transform`, src/obfuscation.rs 708-729:
whitespace tokens are looked up in the dictionary (kept when absent),
rejoined with single spaces, and, for an RTL language, wrapped in
`U+200F U+202B … U+202C`. -/
def LanguageTransformer.joinedText (t : LanguageTransformer) (text : String) : String :=
  let words := splitWhitespace text
  let result := words.map (fun word => (alookup word t.dictionary).getD word)
  if t.is_rtl then
    String.singleton (Char.ofNat 0x200F) ++ String.singleton (Char.ofNat 0x202B) ++
      joinWith " " result ++ String.singleton (Char.ofNat 0x202C)
  else joinWith " " result

/-- Src/obfuscation.rs 707-733 `LanguageTransformer::transform`. -/
def LanguageTransformer.transform (t : LanguageTransformer) (text : String)
    (rng : Rng) : String × Rng :=
  addAttributionFingerprintsWithContext t (t.joinedText text) rng

/-! ## Transformation metadata (src/plugins.rs 67-128)

The envelope is serialized with `serde_json`, an external library; the
embedding models serialization at the level of the JSON document the
library produces and consumes (its UTF-8 text encoding of a document is
the library's own invertible layer).  A Rust `char` is serialized as a
one-character JSON string, an `i32` as a number, a `HashMap` as an object
(association lists here, so an iteration order is fixed). -/

/-- JSON documents, the serde data model. -/
inductive Json where
  | null
  | bool (b : Bool)
  | num (n : Int)
  | str (s : String)
  | arr (elems : List Json)
  | obj (fields : List (String × Json))

/-- Field access on a JSON object, serde_json `Value::get`. -/
def Json.getField (j : Json) (k : String) : Option Json :=
  match j with
  | .obj fields => alookup k fields
  | _ => none

/-- String extraction, serde_json `Value::as_str`. -/
def Json.asStr (j : Json) : Option String :=
  match j with
  | .str s => some s
  | _ => none

/-- Array extraction, serde_json `Value::as_array`. -/
def Json.asArr (j : Json) : Option (List Json) :=
  match j with
  | .arr elems => some elems
  | _ => none

/-- Transformation metadata record, src/plugins.rs 69-87. -/
structure TransformationMetadata where
  scheme_id : String
  key_mapping : List (Char × Char)
  language_dict : List (String × String)
  timezone_offset : Int
  cultural_markers : List (String × String)
  version : String
  deriving DecidableEq

/-- Serialization of a `HashMap<char, char>` field: each character key is a
one-character JSON string, each value a one-character string. -/
def encodeCharMap (l : List (Char × Char)) : List (String × Json) :=
  l.map (fun p => (String.singleton p.1, Json.str (String.singleton p.2)))

/-- Serialization of a `HashMap<String, String>` field. -/
def encodeStrMap (l : List (String × String)) : List (String × Json) :=
  l.map (fun p => (p.1, Json.str p.2))

/-- Src/plugins.rs 116-119 `TransformationMetadata::to_bytes`: the JSON
document `serde_json::to_string` writes out. -/
def TransformationMetadata.to_bytes (m : TransformationMetadata) : Json :=
  Json.obj
    [("scheme_id", Json.str m.scheme_id),
     ("key_mapping", Json.obj (encodeCharMap m.key_mapping)),
     ("language_dict", Json.obj (encodeStrMap m.language_dict)),
     ("timezone_offset", Json.num m.timezone_offset),
     ("cultural_markers", Json.obj (encodeStrMap m.cultural_markers)),
     ("version", Json.str m.version)]

/-- Deserialization of one `char -> char` entry: the key and the value must
each be exactly one character, as serde requires of a `char`. -/
def decodeCharPair (p : String × Json) : Except String (Char × Char) :=
  match p.1.data, p.2 with
  | [c], .str v =>
    match v.data with
    | [d] => .ok (c, d)
    | _ => .error "expected a single-character string"
  | _, _ => .error "expected a single-character key"

/-- Deserialization of a `HashMap<char, char>` object. -/
def decodeCharMap : List (String × Json) → Except String (List (Char × Char))
  | [] => .ok []
  | p :: rest =>
    match decodeCharPair p with
    | .ok x =>
      match decodeCharMap rest with
      | .ok xs => .ok (x :: xs)
      | .error e => .error e
    | .error e => .error e

/-- Deserialization of a `HashMap<String, String>` object. -/
def decodeStrMap : List (String × Json) → Except String (List (String × String))
  | [] => .ok []
  | (k, v) :: rest =>
    match v with
    | .str s =>
      match decodeStrMap rest with
      | .ok xs => .ok ((k, s) :: xs)
      | .error e => .error e
    | _ => .error "expected a string value"

/-- Src/plugins.rs 123-127 `TransformationMetadata::from_bytes`: field-wise
deserialization of the JSON document (`serde_json::from_str` composed with
`serde`'s derived `Deserialize`). -/
def TransformationMetadata.from_bytes (j : Json) :
    Except String TransformationMetadata :=
  match j with
  | .obj fields =>
    match alookup "scheme_id" fields with
    | some (.str sid) =>
      match alookup "key_mapping" fields with
      | some (.obj kmf) =>
        match decodeCharMap kmf with
        | .ok km =>
          match alookup "language_dict" fields with
          | some (.obj ldf) =>
            match decodeStrMap ldf with
            | .ok ld =>
              match alookup "timezone_offset" fields with
              | some (.num tz) =>
                match alookup "cultural_markers" fields with
                | some (.obj cmf) =>
                  match decodeStrMap cmf with
                  | .ok cm =>
                    match alookup "version" fields with
                    | some (.str ver) => .ok ⟨sid, km, ld, tz, cm, ver⟩
                    | _ => .error "version"
                  | .error e => .error e
                | _ => .error "cultural_markers"
              | _ => .error "timezone_offset"
            | .error e => .error e
          | _ => .error "language_dict"
        | .error e => .error e
      | _ => .error "key_mapping"
    | _ => .error "scheme_id"
  | _ => .error "expected an object"

/-! ## Commands, OPSEC validation and history (src/command.rs) -/

/-- A command with its metadata, src/command.rs 8-18. -/
structure Command where
  original : String
  transformed : String
  metadata : TransformationMetadata
  deriving DecidableEq

/-- OPSEC validation result, src/command.rs 62-68. -/
inductive OpsecValidationResult where
  | Valid
  | Warning (msg : String)
  | Violation (msg : String)
  deriving DecidableEq

/-- OPSEC validator state, src/command.rs 71-78 (`working_hours` is the
`(start, endInclusive)` pair, `weekend_days` 0-based-Monday indices,
`holidays` `(month, day)` pairs). -/
structure OpsecValidator where
  timezone_offset : Int
  country_code : String
  language_code : String
  working_hours : Nat × Nat
  weekend_days : List Nat
  holidays : List (Nat × Nat)
  deriving DecidableEq

/-- Src/command.rs 82-95 `OpsecValidator::new`. -/
def OpsecValidator.new (timezone_offset : Int) (country_code language_code : String) :
    OpsecValidator :=
  ⟨timezone_offset, country_code, language_code, (9, 17), [5, 6], []⟩

/-- Src/command.rs 98-114 `OpsecValidator::with_config`. -/
def OpsecValidator.with_config (timezone_offset : Int)
    (country_code language_code : String) (working_hours : Nat × Nat)
    (weekend_days : List Nat) (holidays : List (Nat × Nat)) : OpsecValidator :=
  ⟨timezone_offset, country_code, language_code, working_hours, weekend_days, holidays⟩

/-- The readings `validate` takes from `chrono::Local::now()`: the machine's
local wall clock (hour in 0..23, weekday 1-based from Monday as
`number_from_monday` returns it). -/
structure LocalNow where
  hour : Nat
  weekday_number_from_monday : Nat
  month : Nat
  day : Nat
  deriving DecidableEq

/-- An ambient wall clock relating the UTC reading and the machine-local
reading: `chrono::Local::now()` is the UTC instant shifted by the machine's
own UTC offset (date fields shared, adequate for the hour-source question). -/
structure MachineClock where
  utc_hour : Nat
  local_offset : Int
  weekday_number_from_monday : Nat
  month : Nat
  day : Nat

/-- The `Local::now()` reading the machine described by `w` produces. -/
def MachineClock.localNow (w : MachineClock) : LocalNow :=
  ⟨(((w.utc_hour : Int) + w.local_offset).emod 24).toNat,
   w.weekday_number_from_monday, w.month, w.day⟩

/-- Src/command.rs 152-204 `language_specific_checks` (the match on
`language_code` and the directory check, first hit wins).  The source
lowercases with Unicode `to_lowercase`; every character the checks compare
is fixed by the ASCII map used here. -/
def OpsecValidator.language_specific_checks (v : OpsecValidator) (command : Command) :
    OpsecValidationResult :=
  let cmd := strToLower command.original
  if v.language_code = "ru" ∧ strContains cmd "color" then
    .Warning "Using American English spelling 'color' in Russian attribution profile (should be 'colour')"
  else if v.language_code = "de" ∧ strContains cmd "\\" then
    .Warning "Using Windows path separators '\\' in German attribution profile"
  else if (v.language_code = "fa" ∨ v.language_code = "ar") ∧
          (strContains cmd "LRM" ∨ strContains cmd "LEFT-TO-RIGHT") then
    .Warning "Using LTR markers in RTL language attribution profile"
  else if v.language_code = "zh" ∧ (strContains cmd "の" ∨ strContains cmd "は") then
    .Warning "Using Japanese characters in Chinese attribution profile"
  else if v.country_code ≠ "US" ∧
          (strContains cmd "/users/" ∨ strContains cmd "/desktop/" ∨
           strContains cmd "/documents/") then
    .Warning "Using English directory names in non-US attribution profile"
  else .Valid

/-- Src/command.rs 117-149 `OpsecValidator::validate`.  The hour is read
from `Local::now()` (the machine-local clock), shifted by the persona
offset with `rem_euclid(24)`; then the weekend, holiday and
language-specific checks run in order. -/
def OpsecValidator.validate (v : OpsecValidator) (now : LocalNow) (command : Command) :
    OpsecValidationResult :=
  let local_hour : Int := now.hour
  let target_hour : Nat := ((local_hour + v.timezone_offset).emod 24).toNat
  if target_hour < v.working_hours.1 ∨ target_hour > v.working_hours.2 then
    .Warning ("Operating outside business hours (" ++ toString target_hour ++
      ":00) in target timezone")
  else
    let weekday := now.weekday_number_from_monday - 1
    if v.weekend_days.contains weekday then
      .Warning "Operating on a weekend in target timezone"
    else if v.holidays.contains (now.month, now.day) then
      .Warning ("Operating on a holiday (" ++ toString now.month ++ "/" ++
        toString now.day ++ ") in target timezone")
    else v.language_specific_checks command

/-- Command history state, src/command.rs 208-211 (`Mode::new` constructs it
with `max_entries = 100`, src/modes.rs 120). -/
structure CommandHistoryManager where
  history : List Command
  max_entries : Nat
  deriving DecidableEq

/-- Src/command.rs 215-220 `CommandHistoryManager::new`. -/
def CommandHistoryManager.new (max_entries : Nat) : CommandHistoryManager :=
  ⟨[], max_entries⟩

/-- Src/command.rs 223-230 `CommandHistoryManager::add`: push, then drop the
entry at index 0 when the length exceeds `max_entries`. -/
def CommandHistoryManager.add (m : CommandHistoryManager) (command : Command) :
    CommandHistoryManager :=
  let history := m.history ++ [command]
  if history.length > m.max_entries then ⟨history.eraseIdx 0, m.max_entries⟩
  else ⟨history, m.max_entries⟩

/-! ## C2 adapters (src/plugins.rs 17-19, 374-1335)

The HTTP layer (`reqwest`) is an oracle giving the outcome of each request;
operations return the number of requests performed alongside the result.
Bytes are natural numbers (only lengths and identity of buffer content
matter to the claims). -/

/-- Src/plugins.rs 17 `MAX_BUFFER_SIZE` (1 MiB). -/
def MAX_BUFFER_SIZE : Nat := 1024 * 1024

/-- Src/plugins.rs 18 `MAX_RETRY_ATTEMPTS`. -/
def MAX_RETRY_ATTEMPTS : Nat := 3

/-- The `add_to_buffer` helper shared verbatim by the Cobalt Strike
(src/plugins.rs 412-427), Sliver (731-746) and Mythic (965-980) adapters:
append, then when the length exceeds 1 MiB drain
`len.saturating_sub(MAX_BUFFER_SIZE)` bytes from the front, keeping only
the most recent data. -/
def add_to_buffer (buffer data : List Nat) : List Nat :=
  let buffer := buffer ++ data
  if buffer.length > MAX_BUFFER_SIZE then
    buffer.drop (buffer.length - MAX_BUFFER_SIZE)
  else buffer

/-- Outcome of one HTTP send attempt: a success response, a non-success
status (API error), or a transport error. -/
inductive HttpSendOutcome where
  | success
  | apiError
  | connError
  deriving DecidableEq

/-- The consecutive-error update appearing at src/plugins.rs 602-609,
617-624 (Cobalt Strike), 1143-1151, 1162-1169 (Mythic receive) and
1235-1242, 1249-1256 (Mythic send): increment, and at
`MAX_RETRY_ATTEMPTS` store `connected = false` and reset the counter. -/
def incrRetryDisconnect (connected : Bool) (retry_count : Nat) : Bool × Nat :=
  let retry_count := retry_count + 1
  if retry_count ≥ MAX_RETRY_ATTEMPTS then (false, 0)
  else (connected, retry_count)

/-- Cobalt Strike adapter state, src/plugins.rs 375-382 (the `reqwest`
client and endpoint play no part in the modelled behaviour). -/
structure CobaltStrikePlugin where
  buffer : List Nat
  connection_state : Bool
  retry_count : Nat
  deriving DecidableEq

/-- The retry loop of `CobaltStrikePlugin::send`, src/plugins.rs 573-644.
One oracle consultation per attempt; a success stores the data in the
buffer and resets the counter, a failure feeds the consecutive-error
update; after `MAX_RETRY_ATTEMPTS` attempts the loop ends (the modelled
exponential backoff always grants the next attempt within its 30 s
budget).  Returns the state and the number of requests performed. -/
def csSendLoop : Nat → Nat → CobaltStrikePlugin → List Nat →
    (Nat → HttpSendOutcome) → Nat → CobaltStrikePlugin × Nat
  | 0, _, s, _, _, requests => (s, requests)
  | fuel + 1, attempt, s, data, oracle, requests =>
    let attempt := attempt + 1
    match oracle attempt with
    | .success =>
      (⟨add_to_buffer s.buffer data, s.connection_state, 0⟩, requests + 1)
    | _ =>
      let (c, n) := incrRetryDisconnect s.connection_state s.retry_count
      let s : CobaltStrikePlugin := ⟨s.buffer, c, n⟩
      if attempt ≥ MAX_RETRY_ATTEMPTS then (s, requests + 1)
      else csSendLoop fuel attempt s data oracle (requests + 1)

/-- Src/plugins.rs 559-652 `CobaltStrikePlugin::send`: a disconnected
adapter returns `Ok(())` at once without touching the network; otherwise
the retry loop runs.  Errors are logged, never returned: the result is
always `Ok(())`. -/
def CobaltStrikePlugin.send (s : CobaltStrikePlugin) (data : List Nat)
    (oracle : Nat → HttpSendOutcome) :
    Except String Unit × CobaltStrikePlugin × Nat :=
  if s.connection_state = false then (.ok (), s, 0)
  else
    let (s, requests) := csSendLoop MAX_RETRY_ATTEMPTS 0 s data oracle 0
    (.ok (), s, requests)

/-- Mythic adapter state, src/plugins.rs 897-908 (`last_check_time` is the
`AtomicU64` of Unix seconds). -/
structure MythicPlugin where
  api_key : Option String
  callback_uuid : Option String
  buffer : List Nat
  last_check_time : Nat
  connection_state : Bool
  retry_count : Nat
  deriving DecidableEq

/-- Src/plugins.rs 936-951 `MythicPlugin::should_check_for_tasks`: when at
least 3 seconds elapsed since the stored timestamp, update it and allow the
poll.  `now - last` is `u64` subtraction; the modelled truncated
subtraction agrees whenever `now ≥ last` (a backwards clock step would
wrap in a Rust release build). -/
def MythicPlugin.should_check_for_tasks (s : MythicPlugin) (now : Nat) :
    Bool × MythicPlugin :=
  if now - s.last_check_time ≥ 3 then
    (true, ⟨s.api_key, s.callback_uuid, s.buffer, now, s.connection_state,
      s.retry_count⟩)
  else (false, s)

/-- Outcome of one Mythic tasks poll: a response with its status flag and
parsed JSON body (or a body parse error), a timeout, or a transport error. -/
inductive MythicHttpOutcome where
  | ok (statusSuccess : Bool) (body : Except String Json)
  | timeout
  | connError

/-- The task-extraction chain of src/plugins.rs 1108-1136:
`status == "success"`, then `response` as an array, then the first task's
`command` string. -/
def mythicExtractCommand (j : Json) : Option String :=
  match j.getField "status" with
  | some status =>
    match status.asStr with
    | some "success" =>
      match j.getField "response" with
      | some data =>
        match data.asArr with
        | some tasks =>
          match tasks.head? with
          | some task =>
            match task.getField "command" with
            | some c => c.asStr
            | none => none
          | none => none
        | none => none
      | none => none
    | _ => none
  | none => none

/-- UTF-8 bytes of a string, Rust `str::as_bytes`. -/
def strBytes (s : String) : List Nat := s.toUTF8.data.toList.map (fun b => b.toNat)

/-- Src/plugins.rs 1072-1176 `MythicPlugin::receive`: empty result when not
fully configured, when disconnected, or when the 3-second rate limit stops
the poll; otherwise one HTTP request is made, a success resets the error
counter and may yield the first task's command bytes, an API or transport
error feeds the consecutive-error update, a timeout is ignored. -/
def MythicPlugin.receive (s : MythicPlugin) (now : Nat)
    (oracle : MythicHttpOutcome) : List Nat × MythicPlugin × Nat :=
  if s.api_key.isNone || s.callback_uuid.isNone then ([], s, 0)
  else if !s.connection_state then ([], s, 0)
  else
    let (go, s) := s.should_check_for_tasks now
    if !go then ([], s, 0)
    else
      match oracle with
      | .ok true body =>
        let s : MythicPlugin :=
          ⟨s.api_key, s.callback_uuid, s.buffer, s.last_check_time,
           s.connection_state, 0⟩
        match body with
        | .ok json =>
          match mythicExtractCommand json with
          | some command => (strBytes command, s, 1)
          | none => ([], s, 1)
        | .error _ => ([], s, 1)
      | .ok false _ =>
        let (c, n) := incrRetryDisconnect s.connection_state s.retry_count
        ([], ⟨s.api_key, s.callback_uuid, s.buffer, s.last_check_time, c, n⟩, 1)
      | .timeout => ([], s, 1)
      | .connError =>
        let (c, n) := incrRetryDisconnect s.connection_state s.retry_count
        ([], ⟨s.api_key, s.callback_uuid, s.buffer, s.last_check_time, c, n⟩, 1)

/-- The retry loop of `MythicPlugin::send`, src/plugins.rs 1202-1276 (same
shape as the Cobalt Strike loop). -/
def mythicSendLoop : Nat → Nat → MythicPlugin → List Nat →
    (Nat → HttpSendOutcome) → Nat → MythicPlugin × Nat
  | 0, _, s, _, _, requests => (s, requests)
  | fuel + 1, attempt, s, data, oracle, requests =>
    let attempt := attempt + 1
    match oracle attempt with
    | .success =>
      (⟨s.api_key, s.callback_uuid, add_to_buffer s.buffer data,
        s.last_check_time, s.connection_state, 0⟩, requests + 1)
    | _ =>
      let (c, n) := incrRetryDisconnect s.connection_state s.retry_count
      let s : MythicPlugin :=
        ⟨s.api_key, s.callback_uuid, s.buffer, s.last_check_time, c, n⟩
      if attempt ≥ MAX_RETRY_ATTEMPTS then (s, requests + 1)
      else mythicSendLoop fuel attempt s data oracle (requests + 1)

/-- Src/plugins.rs 1178-1284 `MythicPlugin::send`: `Ok(())` at once, with no
request, when not fully configured or when disconnected; otherwise the
retry loop runs.  The result is always `Ok(())`. -/
def MythicPlugin.send (s : MythicPlugin) (data : List Nat)
    (oracle : Nat → HttpSendOutcome) : Except String Unit × MythicPlugin × Nat :=
  if s.api_key.isNone || s.callback_uuid.isNone then (.ok (), s, 0)
  else if s.connection_state = false then (.ok (), s, 0)
  else
    let (s, requests) := mythicSendLoop MAX_RETRY_ATTEMPTS 0 s data oracle 0
    (.ok (), s, requests)

/-! ## Theorems -/

theorem data_singleton (c : Char) : (String.singleton c).data = [c] := rfl

theorem decodeCharMap_encodeCharMap (l : List (Char × Char)) :
    decodeCharMap (encodeCharMap l) = .ok l := by
  induction l with
  | nil => rfl
  | cons p rest ih =>
    obtain ⟨c, d⟩ := p
    simp only [encodeCharMap, List.map_cons] at ih ⊢
    simp only [decodeCharMap, decodeCharPair, data_singleton, ih]

theorem decodeStrMap_encodeStrMap (l : List (String × String)) :
    decodeStrMap (encodeStrMap l) = .ok l := by
  induction l with
  | nil => rfl
  | cons p rest ih =>
    obtain ⟨k, v⟩ := p
    simp only [encodeStrMap, List.map_cons] at ih ⊢
    simp only [decodeStrMap, ih]

/-- C1.  Deserializing the serialization of any `TransformationMetadata`
value gives back `Ok` of a field-by-field equal value:
`from_bytes (to_bytes m) = Ok m` (proved for every value, which covers
every well-formed one). -/
theorem metadata_to_bytes_from_bytes_roundtrip (m : TransformationMetadata) :
    TransformationMetadata.from_bytes (TransformationMetadata.to_bytes m) =
      Except.ok m := by
  simp [TransformationMetadata.to_bytes, TransformationMetadata.from_bytes, alookup,
    decodeCharMap_encodeCharMap, decodeStrMap_encodeStrMap]

/-- C9.  The built-in OPSEC rule set classifies every command as `Valid` or
`Warning`; the `Violation` variant is never produced. -/
theorem opsec_validate_never_violation (v : OpsecValidator) (now : LocalNow)
    (cmd : Command) (msg : String) :
    v.validate now cmd ≠ OpsecValidationResult.Violation msg := by
  unfold OpsecValidator.validate OpsecValidator.language_specific_checks
  dsimp only
  split_ifs <;> simp

theorem history_add_length_le (m : CommandHistoryManager) (c : Command)
    (h : m.history.length ≤ m.max_entries) :
    (m.add c).history.length ≤ m.max_entries := by
  unfold CommandHistoryManager.add
  dsimp only
  split_ifs with h1 <;> simp_all [List.length_eraseIdx]

theorem history_add_max_entries (m : CommandHistoryManager) (c : Command) :
    (m.add c).max_entries = m.max_entries := by
  unfold CommandHistoryManager.add
  dsimp only
  split_ifs <;> rfl

theorem history_foldl_invariant (cmds : List Command) :
    ∀ m : CommandHistoryManager, m.history.length ≤ m.max_entries →
      (cmds.foldl CommandHistoryManager.add m).history.length ≤
        (cmds.foldl CommandHistoryManager.add m).max_entries ∧
      (cmds.foldl CommandHistoryManager.add m).max_entries = m.max_entries := by
  induction cmds with
  | nil => intro m h; exact ⟨h, rfl⟩
  | cons c rest ih =>
    intro m h
    have h1 := history_add_length_le m c h
    have h2 := history_add_max_entries m c
    have h1' : (m.add c).history.length ≤ (m.add c).max_entries := by
      rw [h2]; exact h1
    have := ih (m.add c) h1'
    simp only [List.foldl_cons]
    exact ⟨this.1, this.2.trans h2⟩

/-- C7.  A history manager of capacity 100 (the capacity `Mode::new`
constructs, src/modes.rs 120) never holds more than 100 entries after any
sequence of `add` calls, and an `add` performed at capacity removes the
entry at index 0 while appending the new command at the end. -/
theorem command_history_bounded_fifo :
    (∀ cmds : List Command,
      (cmds.foldl CommandHistoryManager.add (CommandHistoryManager.new 100)).history.length
        ≤ 100) ∧
    (∀ (m : CommandHistoryManager) (c : Command), m.max_entries = 100 →
      m.history.length = 100 →
      (m.add c).history = m.history.drop 1 ++ [c]) := by
  constructor
  · intro cmds
    have h := history_foldl_invariant cmds (CommandHistoryManager.new 100)
      (by simp [CommandHistoryManager.new])
    have h1 := h.1
    rw [h.2] at h1
    exact h1
  · intro m c hmax hlen
    unfold CommandHistoryManager.add
    dsimp only
    rw [if_pos (by simp [hlen, hmax])]
    cases hh : m.history with
    | nil => simp [hh] at hlen
    | cons x t => simp [hh, List.eraseIdx]

/-- Witness for C7: a history at capacity 100 drops its first entry. -/
theorem command_history_bounded_fifo_witness :
    ((CommandHistoryManager.mk
        (List.replicate 100 (Command.mk "ls" "ls" ⟨"ltr", [], [], 0, [], "1.0"⟩)) 100).add
      (Command.mk "pwd" "pwd" ⟨"ltr", [], [], 0, [], "1.0"⟩)).history =
    (List.replicate 100 (Command.mk "ls" "ls" ⟨"ltr", [], [], 0, [], "1.0"⟩)).drop 1 ++
      [Command.mk "pwd" "pwd" ⟨"ltr", [], [], 0, [], "1.0"⟩] :=
  command_history_bounded_fifo.2 _ _ rfl (by simp)

theorem add_to_buffer_length_le (buffer data : List Nat) :
    (add_to_buffer buffer data).length ≤ MAX_BUFFER_SIZE ∨
      (add_to_buffer buffer data).length = (buffer ++ data).length := by
  unfold add_to_buffer
  dsimp only
  split_ifs with h
  · left; simp; omega
  · right; rfl

/-- C6.  The shared `add_to_buffer` of the Cobalt Strike, Sliver and Mythic
adapters keeps the byte buffer at or below 1 MiB after every append
(hence after any sequence of `send` calls from the initial empty buffer),
dropping the oldest bytes on overflow to restore the cap exactly. -/
theorem adapter_buffer_capped :
    (∀ buffer data : List Nat,
      buffer.length ≤ MAX_BUFFER_SIZE →
        (add_to_buffer buffer data).length ≤ MAX_BUFFER_SIZE) ∧
    (∀ datas : List (List Nat),
      (datas.foldl add_to_buffer []).length ≤ MAX_BUFFER_SIZE) ∧
    (∀ buffer data : List Nat,
      (buffer ++ data).length > MAX_BUFFER_SIZE →
        add_to_buffer buffer data =
          (buffer ++ data).drop ((buffer ++ data).length - MAX_BUFFER_SIZE) ∧
        (add_to_buffer buffer data).length = MAX_BUFFER_SIZE) := by
  have hle : ∀ buffer data : List Nat,
      buffer.length ≤ MAX_BUFFER_SIZE →
        (add_to_buffer buffer data).length ≤ MAX_BUFFER_SIZE := by
    intro buffer data h
    unfold add_to_buffer
    dsimp only
    split_ifs with h1
    · rw [List.length_drop]; omega
    · omega
  refine ⟨hle, ?_, ?_⟩
  · intro datas
    have : ∀ (ds : List (List Nat)) (buf : List Nat), buf.length ≤ MAX_BUFFER_SIZE →
        (ds.foldl add_to_buffer buf).length ≤ MAX_BUFFER_SIZE := by
      intro ds
      induction ds with
      | nil => intro buf h; simpa using h
      | cons d rest ih => intro buf h; exact ih _ (hle buf d h)
    exact this datas [] (by simp)
  · intro buffer data h
    constructor
    · unfold add_to_buffer
      dsimp only
      rw [if_pos h]
    · unfold add_to_buffer
      dsimp only
      rw [if_pos h, List.length_drop]
      omega

theorem replicate_append_length (n : Nat) (l2 : List Nat) (k : Nat)
    (hk : l2.length = k) (h : 0 < k) :
    ((List.replicate n (0 : Nat)) ++ l2).length > n := by
  rw [List.length_append, List.length_replicate, hk]; omega

/-- Witness for C6: an overflowing append drops exactly the oldest bytes. -/
theorem adapter_buffer_capped_witness :
    add_to_buffer (List.replicate MAX_BUFFER_SIZE 0) [1, 2] =
      ((List.replicate MAX_BUFFER_SIZE 0) ++ [1, 2]).drop
        (((List.replicate MAX_BUFFER_SIZE 0) ++ [1, 2]).length - MAX_BUFFER_SIZE) ∧
    (add_to_buffer (List.replicate MAX_BUFFER_SIZE 0) [1, 2]).length = MAX_BUFFER_SIZE :=
  adapter_buffer_capped.2.2 _ _
    (replicate_append_length MAX_BUFFER_SIZE [1, 2] 2 rfl (by omega))

/-- C5.  HTTP-style adapters: once the consecutive-error counter reaches
`MAX_RETRY_ATTEMPTS = 3`, the update stores `connected = false` and resets
the counter to 0; and any `send` invoked while disconnected performs no
network request, leaves the state unchanged (so the short-circuit persists
until an explicit `initialize` reconnects), and returns `Ok` — for both the
Cobalt Strike and the Mythic adapter. -/
theorem adapter_disconnect_and_silent_send :
    (∀ (connected : Bool) (count : Nat), count + 1 ≥ MAX_RETRY_ATTEMPTS →
      incrRetryDisconnect connected count = (false, 0)) ∧
    (∀ (s : CobaltStrikePlugin) (data : List Nat) (oracle : Nat → HttpSendOutcome),
      s.connection_state = false →
      s.send data oracle = (Except.ok (), s, 0)) ∧
    (∀ (s : MythicPlugin) (data : List Nat) (oracle : Nat → HttpSendOutcome),
      s.connection_state = false →
      s.send data oracle = (Except.ok (), s, 0)) := by
  refine ⟨?_, ?_, ?_⟩
  · intro connected count h
    unfold incrRetryDisconnect
    dsimp only
    rw [if_pos h]
  · intro s data oracle h
    unfold CobaltStrikePlugin.send
    rw [if_pos h]
  · intro s data oracle h
    unfold MythicPlugin.send
    simp only [h]
    split_ifs <;> rfl

/-- Witness for C5: the counter update at 2 disconnects and resets, and a
disconnected Cobalt Strike or Mythic adapter sends nothing and answers
`Ok`. -/
theorem adapter_disconnect_and_silent_send_witness :
    incrRetryDisconnect true 2 = (false, 0) ∧
    CobaltStrikePlugin.send ⟨[3], false, 0⟩ [7] (fun _ => HttpSendOutcome.success) =
      (Except.ok (), ⟨[3], false, 0⟩, 0) ∧
    MythicPlugin.send ⟨some "key", some "uuid", [], 5, false, 1⟩ [7]
        (fun _ => HttpSendOutcome.success) =
      (Except.ok (), ⟨some "key", some "uuid", [], 5, false, 1⟩, 0) :=
  ⟨adapter_disconnect_and_silent_send.1 true 2 (by decide),
   adapter_disconnect_and_silent_send.2.1 _ _ _ rfl,
   adapter_disconnect_and_silent_send.2.2 _ _ _ rfl⟩

/-- C8.  A fully configured, connected Mythic adapter whose last-poll
timestamp was updated fewer than 3 seconds before the current call returns
an empty byte vector, leaves the state unchanged, and issues no HTTP
request. -/
theorem mythic_receive_rate_limited (s : MythicPlugin) (now : Nat)
    (oracle : MythicHttpOutcome)
    (hkey : s.api_key.isSome) (huuid : s.callback_uuid.isSome)
    (hconn : s.connection_state = true)
    (_hmono : s.last_check_time ≤ now) (hrate : now - s.last_check_time < 3) :
    s.receive now oracle = ([], s, 0) := by
  unfold MythicPlugin.receive MythicPlugin.should_check_for_tasks
  have h1 : s.api_key.isNone = false := by
    cases h : s.api_key <;> simp_all
  have h2 : s.callback_uuid.isNone = false := by
    cases h : s.callback_uuid <;> simp_all
  have h3 : ¬(now - s.last_check_time ≥ 3) := by omega
  simp [h1, h2, hconn, h3]

/-- Witness for C8: a second poll 2 seconds after the last one is silent. -/
theorem mythic_receive_rate_limited_witness :
    MythicPlugin.receive ⟨some "key", some "uuid", [], 100, true, 0⟩ 102
      MythicHttpOutcome.timeout = ([], ⟨some "key", some "uuid", [], 100, true, 0⟩, 0) :=
  mythic_receive_rate_limited _ _ _ (by decide) (by decide) rfl (by decide) (by decide)

theorem identityMapping_pairs : ∀ p ∈ identityMapping, p.1 = p.2 := by decide

theorem alookup_self (m : List (Key × Key)) (h : ∀ p ∈ m, p.1 = p.2) (k : Key) :
    (alookup k m).getD k = k := by
  induction m with
  | nil => rfl
  | cons p rest ih =>
    obtain ⟨a, b⟩ := p
    have hab : a = b := h (a, b) (by simp)
    simp only [alookup]
    split_ifs with hk
    · simp [← hab, hk]
    · exact ih (fun q hq => h q (by simp [hq]))

/-- C10.  For any country code outside the eleven known ones,
`KeyMapper::for_country` yields the identity mapper: `map_key` returns
every key unchanged (ASCII letters and digits, the named keys, and any key
absent from the map alike). -/
theorem for_country_default_identity (cc : String)
    (h : cc ∉ ["DE", "FR", "RU", "JP", "ES", "BR", "CN", "HK", "KR", "AR", "IR"]) :
    ∀ k : Key, (KeyMapper.for_country cc).map_key k = k := by
  intro k
  simp only [List.mem_cons, List.not_mem_nil, or_false, not_or] at h
  obtain ⟨h1, h2, h3, h4, h5, h6, h7, h8, h9, h10, h11⟩ := h
  unfold KeyMapper.for_country
  rw [if_neg h1, if_neg h2, if_neg h3, if_neg h4, if_neg h5, if_neg h6, if_neg h7,
    if_neg h8, if_neg h9, if_neg h10, if_neg h11]
  exact alookup_self identityMapping identityMapping_pairs k

/-- Witness for C10: the unknown country "US" maps a letter, a digit, a
named key and an unmapped key to themselves. -/
theorem for_country_default_identity_witness :
    (KeyMapper.for_country "US").map_key (Key.Char 'a') = Key.Char 'a' ∧
    (KeyMapper.for_country "US").map_key (Key.Char '7') = Key.Char '7' ∧
    (KeyMapper.for_country "US").map_key Key.Enter = Key.Enter ∧
    (KeyMapper.for_country "US").map_key (Key.Char 'ß') = Key.Char 'ß' :=
  ⟨for_country_default_identity "US" (by decide) _,
   for_country_default_identity "US" (by decide) _,
   for_country_default_identity "US" (by decide) _,
   for_country_default_identity "US" (by decide) _⟩

/-- C2 (code evaluated at the failing input).  The claim says `validate`
computes the target-local hour from the UTC wall clock; the source reads
`chrono::Local::now()`, the machine-local clock (src/command.rs 119-121),
while its sibling `TimestampEmulator::get_timestamp` uses `Utc::now()`
(src/obfuscation.rs 3504-3507).  On a machine one hour east of UTC at
08:00 UTC on a Monday, a validator with persona offset 0 and working hours
(9, 17) returns `Valid` — although the claimed UTC-based hour
`(8 + 0) mod 24 = 8` is strictly below the working-hours start 9, so the
claim requires the business-hours `Warning`. -/
theorem opsec_validator_reads_machine_local_clock :
    (OpsecValidator.new 0 "US" "en").validate
        (MachineClock.localNow ⟨8, 1, 1, 6, 2⟩)
        ⟨"ls", "ls", ⟨"ltr", [], [], 0, [], "1.0"⟩⟩ =
      OpsecValidationResult.Valid ∧
    ((((8 : Nat) : Int) + (OpsecValidator.new 0 "US" "en").timezone_offset).emod 24).toNat
      < (OpsecValidator.new 0 "US" "en").working_hours.1 := by
  constructor
  · decide
  · decide

theorem splitWsAux_append_token (t : List Char) :
    ∀ (l acc : List Char), (∀ c ∈ t, rustWhitespace c = false) →
      splitWsAux (t ++ l) acc = splitWsAux l (t.reverse ++ acc) := by
  induction t with
  | nil => intro l acc _; simp
  | cons c t ih =>
    intro l acc h
    have hc : rustWhitespace c = false := h c (by simp)
    simp only [List.cons_append, splitWsAux, hc, Bool.false_eq_true, if_false,
      List.append_eq]
    rw [ih l (c :: acc) (fun d hd => h d (by simp [hd]))]
    simp [List.append_assoc]

theorem splitWs_token_cons (t : List Char) (l : List Char) (ht : t ≠ [])
    (hw : ∀ c ∈ t, rustWhitespace c = false) :
    splitWs (t ++ ' ' :: l) = t :: splitWs l := by
  unfold splitWs
  rw [splitWsAux_append_token t (' ' :: l) [] hw]
  have : rustWhitespace ' ' = true := by decide
  simp only [List.append_nil, splitWsAux, this, if_true]
  have hne : t.reverse.isEmpty = false := by
    cases t with
    | nil => exact absurd rfl ht
    | cons a b => simp
  simp [hne]

theorem splitWs_single_token (t : List Char) (ht : t ≠ [])
    (hw : ∀ c ∈ t, rustWhitespace c = false) :
    splitWs t = [t] := by
  unfold splitWs
  have := splitWsAux_append_token t [] [] hw
  rw [List.append_nil] at this
  rw [this]
  have hne : t.reverse.isEmpty = false := by
    cases t with
    | nil => exact absurd rfl ht
    | cons a b => simp
  simp [splitWsAux, hne]

theorem splitWsAux_tokens (l : List Char) :
    ∀ acc, (∀ c ∈ acc, rustWhitespace c = false) →
      ∀ tok ∈ splitWsAux l acc, tok ≠ [] ∧ ∀ c ∈ tok, rustWhitespace c = false := by
  induction l with
  | nil =>
    intro acc hacc tok htok
    by_cases hac : acc.isEmpty
    · simp [splitWsAux, hac] at htok
    · simp [splitWsAux, hac] at htok
      subst htok
      refine ⟨?_, ?_⟩
      · simp only [ne_eq, List.reverse_eq_nil_iff]
        intro hnil
        simp [hnil] at hac
      · intro c hc
        exact hacc c (List.mem_reverse.mp hc)
  | cons c cs ih =>
    intro acc hacc tok htok
    by_cases hc : rustWhitespace c
    · by_cases hac : acc.isEmpty
      · simp only [splitWsAux, hc, if_true, hac] at htok
        exact ih [] (by simp) tok htok
      · simp only [splitWsAux, hc, if_true, hac, Bool.false_eq_true, if_false,
          List.mem_cons] at htok
        rcases htok with h | h
        · subst h
          refine ⟨?_, ?_⟩
          · simp only [ne_eq, List.reverse_eq_nil_iff]
            intro hnil
            simp [hnil] at hac
          · intro d hd
            exact hacc d (List.mem_reverse.mp hd)
        · exact ih [] (by simp) tok h
    · simp only [splitWsAux, hc, Bool.false_eq_true, if_false] at htok
      refine ih (c :: acc) ?_ tok htok
      intro d hd
      rcases List.mem_cons.mp hd with h | h
      · subst h; simpa using hc
      · exact hacc d h

theorem splitWs_tokens (l : List Char) :
    ∀ tok ∈ splitWs l, tok ≠ [] ∧ ∀ c ∈ tok, rustWhitespace c = false :=
  splitWsAux_tokens l [] (by simp)

theorem intercalate_cons_two (sep a b : List Char) (l : List (List Char)) :
    List.intercalate sep (a :: b :: l) = a ++ sep ++ List.intercalate sep (b :: l) := by
  simp [List.intercalate, List.intersperse]

theorem splitWs_intercalate (ts : List (List Char))
    (h : ∀ t ∈ ts, t ≠ [] ∧ ∀ c ∈ t, rustWhitespace c = false) :
    splitWs (List.intercalate [' '] ts) = ts := by
  induction ts with
  | nil => rfl
  | cons t rest ih =>
    cases rest with
    | nil =>
      have ht := h t (by simp)
      simp only [List.intercalate, List.intersperse, List.join]
      simpa using splitWs_single_token t ht.1 ht.2
    | cons r rs =>
      rw [intercalate_cons_two]
      have ht := h t (by simp)
      rw [List.append_assoc, List.singleton_append]
      rw [splitWs_token_cons t _ ht.1 ht.2]
      rw [ih (fun x hx => h x (by simp [hx]))]

theorem splitWs_intercalate_concat (pdf : Char) (hpdf : rustWhitespace pdf = false) :
    ∀ ts : List (List Char), ts ≠ [] →
      (∀ t ∈ ts, t ≠ [] ∧ ∀ c ∈ t, rustWhitespace c = false) →
      (splitWs (List.intercalate [' '] ts ++ [pdf])).length = ts.length := by
  intro ts
  induction ts with
  | nil => intro h; exact absurd rfl h
  | cons t rest ih =>
    intro _ h
    cases rest with
    | nil =>
      have ht := h t (by simp)
      simp only [List.intercalate, List.intersperse, List.flatten_cons,
        List.flatten_nil, List.append_nil]
      rw [splitWs_single_token (t ++ [pdf]) (by simp) ?_]
      · rfl
      · intro c hc
        rcases List.mem_append.mp hc with h1 | h1
        · exact ht.2 c h1
        · simp at h1; subst h1; exact hpdf
    | cons r rs =>
      rw [intercalate_cons_two]
      have ht := h t (by simp)
      rw [List.append_assoc, List.append_assoc, List.singleton_append]
      rw [splitWs_token_cons t _ ht.1 ht.2]
      simp only [List.length_cons]
      rw [ih (by simp) (fun x hx => h x (by simp [hx]))]
      simp

theorem splitWs_wrap (rlm rle pdf : Char) (hrlm : rustWhitespace rlm = false)
    (hrle : rustWhitespace rle = false) (hpdf : rustWhitespace pdf = false)
    (ts : List (List Char)) (hne : ts ≠ [])
    (h : ∀ t ∈ ts, t ≠ [] ∧ ∀ c ∈ t, rustWhitespace c = false) :
    (splitWs (rlm :: rle :: (List.intercalate [' '] ts ++ [pdf]))).length = ts.length := by
  cases ts with
  | nil => exact absurd rfl hne
  | cons t rest =>
    cases rest with
    | nil =>
      have ht := h t (by simp)
      simp only [List.intercalate, List.intersperse, List.flatten_cons,
        List.flatten_nil, List.append_nil]
      have : rlm :: rle :: (t ++ [pdf]) = (rlm :: rle :: t) ++ [pdf] := by simp
      rw [this, splitWs_single_token ((rlm :: rle :: t) ++ [pdf]) (by simp) ?_]
      · rfl
      · intro c hc
        rcases List.mem_append.mp hc with h1 | h1
        · rcases List.mem_cons.mp h1 with h2 | h2
          · subst h2; exact hrlm
          · rcases List.mem_cons.mp h2 with h3 | h3
            · subst h3; exact hrle
            · exact ht.2 c h3
        · simp at h1; subst h1; exact hpdf
    | cons r rs =>
      rw [intercalate_cons_two]
      have ht := h t (by simp)
      have : rlm :: rle :: (t ++ [' '] ++ List.intercalate [' '] (r :: rs) ++ [pdf]) =
          (rlm :: rle :: t) ++ ' ' :: (List.intercalate [' '] (r :: rs) ++ [pdf]) := by
        simp
      rw [this, splitWs_token_cons (rlm :: rle :: t) _ (by simp) ?_]
      · simp only [List.length_cons]
        rw [splitWs_intercalate_concat pdf hpdf (r :: rs) (by simp)
          (fun x hx => h x (by simp [hx]))]
        rfl
      · intro c hc
        rcases List.mem_cons.mp hc with h2 | h2
        · subst h2; exact hrlm
        · rcases List.mem_cons.mp h2 with h3 | h3
          · subst h3; exact hrle
          · exact ht.2 c h3

theorem identifyProtectedContexts_snd (text : String) :
    (identifyProtectedContexts text).2 = text := rfl

theorem transform_no_fp (t : LanguageTransformer) (s : String) (rng : Rng)
    (h : t.attribution_region ∉ fingerprintRegions) :
    t.transform s rng = (t.joinedText s, rng) := by
  simp only [fingerprintRegions, List.mem_cons, List.not_mem_nil, or_false,
    not_or] at h
  obtain ⟨h1, h2, h3, h4, h5, h6, h7⟩ := h
  simp only [LanguageTransformer.transform, addAttributionFingerprintsWithContext,
    restoreProtectedParts, identifyProtectedContexts_snd,
    h1, h2, h3, h4, h5, h6, h7, if_false]

theorem alookup_mem [DecidableEq α] (k : α) (v : β) :
    ∀ l : List (α × β), alookup k l = some v → (k, v) ∈ l := by
  intro l
  induction l with
  | nil => intro h; simp [alookup] at h
  | cons p rest ih =>
    obtain ⟨a, b⟩ := p
    intro h
    by_cases ha : a = k
    · simp only [alookup, ha, if_true, Option.some.injEq] at h
      subst ha; subst h
      exact List.mem_cons_self _ _
    · simp only [alookup, ha, if_false] at h
      exact List.mem_cons_of_mem _ (ih h)

theorem string_data_eq_nil_iff (v : String) : v.data = [] ↔ v = "" := by
  cases v with
  | mk d =>
    constructor
    · intro h
      simp only at h
      subst h
      rfl
    · intro h
      rw [h]

theorem string_data_append (a b : String) : (a ++ b).data = a.data ++ b.data := rfl

/-- The character data of every token of `joinedText`'s word list is a
nonempty whitespace-free character list, provided the dictionary's values
are nonempty and whitespace-free. -/
theorem joined_tokens_ok (t : LanguageTransformer) (s : String)
    (hdict : ∀ p ∈ t.dictionary, p.2 ≠ "" ∧ ∀ c ∈ p.2.data, rustWhitespace c = false) :
    ∀ w ∈ (splitWs s.data).map
        (fun w => ((alookup (⟨w⟩ : String) t.dictionary).getD ⟨w⟩).data),
      w ≠ [] ∧ ∀ c ∈ w, rustWhitespace c = false := by
  intro w hw
  rcases List.mem_map.mp hw with ⟨tok, htok, heq⟩
  subst heq
  rcases halk : alookup (⟨tok⟩ : String) t.dictionary with _ | v
  · simp only [halk, Option.getD_none]
    exact splitWs_tokens s.data tok htok
  · simp only [halk, Option.getD_some]
    have hv := hdict _ (alookup_mem _ _ _ halk)
    refine ⟨?_, hv.2⟩
    intro hnil
    exact hv.1 ((string_data_eq_nil_iff v).mp hnil)

/-- The word list underlying `joinedText`, written as character lists. -/
theorem joinedText_word_data (t : LanguageTransformer) (s : String) :
    ((splitWhitespace s).map (fun word => (alookup word t.dictionary).getD word)).map
        String.data =
      (splitWs s.data).map
        (fun w => ((alookup (⟨w⟩ : String) t.dictionary).getD ⟨w⟩).data) := by
  simp only [splitWhitespace, List.map_map]
  rfl

theorem countTokens_joinedText (t : LanguageTransformer) (s : String)
    (hdict : ∀ p ∈ t.dictionary, p.2 ≠ "" ∧ ∀ c ∈ p.2.data, rustWhitespace c = false)
    (hs : t.is_rtl = false ∨ 1 ≤ countTokens s) :
    countTokens (t.joinedText s) = countTokens s := by
  have hts := joined_tokens_ok t s hdict
  rcases hrtl : t.is_rtl with _ | _
  · simp only [LanguageTransformer.joinedText, hrtl, Bool.false_eq_true, if_false,
      countTokens, joinWith, joinedText_word_data]
    rw [splitWs_intercalate _ hts]
    simp [splitWhitespace, countTokens]
  · rcases hs with hs | hs
    · rw [hrtl] at hs; simp at hs
    · simp only [LanguageTransformer.joinedText, hrtl, if_true, countTokens,
        joinWith, string_data_append, data_singleton, joinedText_word_data]
      have hlist :
          ([Char.ofNat 0x200F] ++ [Char.ofNat 0x202B] ++
              List.intercalate (" ").data
                ((splitWs s.data).map
                  (fun w => ((alookup (⟨w⟩ : String) t.dictionary).getD ⟨w⟩).data)) ++
              [Char.ofNat 0x202C]) =
            Char.ofNat 0x200F :: Char.ofNat 0x202B ::
              (List.intercalate [' ']
                ((splitWs s.data).map
                  (fun w => ((alookup (⟨w⟩ : String) t.dictionary).getD ⟨w⟩).data)) ++
                [Char.ofNat 0x202C]) := by
        simp
      rw [hlist]
      rw [splitWs_wrap _ _ _ (by decide) (by decide) (by decide) _ ?_ hts]
      · simp [countTokens]
      · intro hnil
        simp only [List.map_eq_nil_iff] at hnil
        simp [countTokens, hnil] at hs

/-- C3: for every transformer whose dictionary maps words to single nonempty
whitespace-free tokens, whose attribution region is outside the seven
fingerprint regions, and whose input is nonempty when the language is RTL,
`transform` preserves the whitespace token count.  (The unrestricted claim
is refuted by `transform_token_count_counterexample`: the built-in German
dictionary maps the one-token word "goodbye" to the two-token phrase
"auf wiedersehen".) -/
theorem transform_preserves_token_count (t : LanguageTransformer) (s : String)
    (rng : Rng)
    (hreg : t.attribution_region ∉ fingerprintRegions)
    (hdict : ∀ p ∈ t.dictionary, p.2 ≠ "" ∧ ∀ c ∈ p.2.data, rustWhitespace c = false)
    (hs : t.is_rtl = false ∨ 1 ≤ countTokens s) :
    countTokens (t.transform s rng).1 = countTokens s := by
  rw [transform_no_fp t s rng hreg]
  exact countTokens_joinedText t s hdict hs

theorem transform_preserves_token_count_witness :
    countTokens ((⟨[("hello", "hallo")], "de", "us"⟩ : LanguageTransformer).transform
        "hello world" []).1 = countTokens "hello world" :=
  transform_preserves_token_count ⟨[("hello", "hallo")], "de", "us"⟩ "hello world" []
    (by decide) (by decide) (Or.inl (by decide))

/-- The claim as frozen is false of the code: the German transformer sends
the one-token input "goodbye" to "auf wiedersehen" (rule draws all missing),
which has two whitespace tokens. -/
theorem transform_token_count_counterexample :
    countTokens ((⟨german_dictionary, "de", "de"⟩ : LanguageTransformer).transform
        "goodbye" [99, 99, 99, 99, 99]).1 ≠ countTokens "goodbye" := by decide

/-- C4: for every RTL transformer whose attribution region is outside the
seven fingerprint regions, `transform` yields a string starting with U+200F
immediately followed by U+202B and ending with U+202C.  (The unrestricted
claim is refuted by `transform_rtl_wrap_counterexample`: the Farsi
fingerprint stage can prepend a further U+200F, so the second character is
no longer U+202B.) -/
theorem transform_rtl_wrap (t : LanguageTransformer) (s : String) (rng : Rng)
    (hrtl : t.is_rtl = true)
    (hreg : t.attribution_region ∉ fingerprintRegions) :
    (t.transform s rng).1.data.take 2 = [Char.ofNat 0x200F, Char.ofNat 0x202B] ∧
      (t.transform s rng).1.data.getLast? = some (Char.ofNat 0x202C) := by
  rw [transform_no_fp t s rng hreg]
  have hdata : (t.joinedText s).data =
      (Char.ofNat 0x200F :: Char.ofNat 0x202B ::
        (joinWith " " ((splitWhitespace s).map
          (fun word => (alookup word t.dictionary).getD word))).data) ++
        [Char.ofNat 0x202C] := by
    simp [LanguageTransformer.joinedText, hrtl, string_data_append, data_singleton]
  rw [hdata]
  constructor
  · rfl
  · exact List.getLast?_concat _

theorem transform_rtl_wrap_witness :
    ((⟨[], "ar", "us"⟩ : LanguageTransformer).transform "hi" []).1.data.take 2 =
        [Char.ofNat 0x200F, Char.ofNat 0x202B] ∧
      ((⟨[], "ar", "us"⟩ : LanguageTransformer).transform "hi"
          []).1.data.getLast? = some (Char.ofNat 0x202C) :=
  transform_rtl_wrap ⟨[], "ar", "us"⟩ "hi" [] (by decide) (by decide)

/-- The claim as frozen is false of the code: with attribution region "fa",
fingerprint rule 2 (strategy 0) prepends a further U+200F, so the second
character of the output is U+200F, not U+202B. -/
theorem transform_rtl_wrap_counterexample :
    ¬ ((((⟨farsi_dictionary, "fa", "fa"⟩ : LanguageTransformer).transform ""
        [99, 0, 0, 99, 99, 99, 99]).1.data.take 2 =
      [Char.ofNat 0x200F, Char.ofNat 0x202B])) := by decide
